import Mathlib

/-!
# Split UNO Arbiter — verification of the v3 rules engine

A shallow embedding of the Split UNO arbiter engine (`arbiter.cpp`,
version 3.0 "Refactored for N Players") together with proofs about the
number-round resolver, the action-card handlers, the bonus evaluator and
the win/challenge evaluator.

The engine mutates a vector of per-player counters and two shared deck
counters.  C++ `int` fields are modelled as `Int`; every mutation of the
source is translated literally (including the `max(0, ...)` clamps and the
clamped deck draws), and every interactive `cin` read that the source
validates (`getValidatedInt`, `getValidatedString`,
`getValidatedPlayerIndex`) becomes an explicit decision parameter, with the
validated range recorded as a hypothesis where a proof needs it.
-/

namespace SplitUno

/-- Per-player counters, mirroring `struct Player` of arbiter.cpp (v3). -/
structure Player where
  name : String
  numberCards : Int
  actionCards : Int
  consecutiveWins : Int
  isBlocked : Bool
deriving DecidableEq

/-- The engine state: the player vector, the two deck pools, and the
terminal flags, mirroring the private state of `SplitUnoArbiter` (v3). -/
structure GameState where
  players : List Player
  numberDeckRemaining : Int
  actionDeckRemaining : Int
  gameOver : Bool
  winner : String
deriving DecidableEq

/-- `players[i].name`, with `""` out of range (the source always uses
validated indices). -/
def nameOf (s : GameState) (i : Nat) : String :=
  match s.players[i]? with
  | some p => p.name
  | none => ""

/-- Apply `f` to the `i`-th element of a list, like a C++ write through
`players[i]`. Out-of-range indices leave the list unchanged (the source
only ever uses validated indices). -/
def modifyNth (f : α → α) : Nat → List α → List α
  | _, [] => []
  | 0, a :: as => f a :: as
  | n + 1, a :: as => a :: modifyNth f n as

/-- Record-update helper: the state `s` with its player vector replaced. -/
def setPlayers (s : GameState) (ps : List Player) : GameState :=
  { s with players := ps }

/-- `drawFromNumberDeck` (v3): returns the clamped amount actually drawn
and the updated state.  If the pool is already exhausted nothing is drawn;
otherwise the draw is capped at the remaining count. -/
def drawFromNumberDeck (amount : Int) (s : GameState) : Int × GameState :=
  if s.numberDeckRemaining ≤ 0 then
    (0, s)
  else
    let actualDraw := min amount s.numberDeckRemaining
    (actualDraw, { s with numberDeckRemaining := s.numberDeckRemaining - actualDraw })

/-- `drawFromActionDeck` (v3): clamped draw from the action pool. -/
def drawFromActionDeck (amount : Int) (s : GameState) : Int × GameState :=
  if s.actionDeckRemaining ≤ 0 then
    (0, s)
  else
    let actualDraw := min amount s.actionDeckRemaining
    (actualDraw, { s with actionDeckRemaining := s.actionDeckRemaining - actualDraw })

/-- The two players built by `setupGame` (generalised to a name list; v3
constructs each participant as `Player(name, INITIAL_CARDS)` with
`INITIAL_CARDS = 20`, and the constructor sets the deck pools to
`INITIAL_NUMBER_DECK = 68` and `INITIAL_ACTION_DECK = 32`). -/
def initState (names : List String) : GameState :=
  { players := names.map (fun n => ⟨n, 20, 0, 0, false⟩)
    numberDeckRemaining := 68
    actionDeckRemaining := 32
    gameOver := false
    winner := "" }

/-- The decision responses a caller supplies during one number round, one
per interactive read of the source, indexed by the player the question is
about: the declared card of each non-blocked player, the nominated steal
and penalty-7 targets, the bonus choice (`true` = "(1) Draw 1 Action
Card"), and the win-challenge responses (`challenged` = "Any challenges?",
the challenger index, and `challengePlusTwo` = the challenge card is "+2",
else "+4"). -/
structure RoundDecisions where
  plays : Nat → Int
  stealTarget : Nat → Nat
  penaltyTarget : Nat → Nat
  bonusDrawAction : Nat → Bool
  challenged : Nat → Bool
  challengerIdx : Nat → Nat
  challengePlusTwo : Nat → Bool

/-- Result of the card-collection loop of `handleNumberRound` (v3, step 1):
the players (blocked ones skipped and unblocked), the recorded plays
(`-1` marking a blocked player), the running maximum, and the winner set. -/
structure CollectResult where
  players : List Player
  playedCards : List Int
  maxCard : Int
  winners : List Nat

/-- Step 1 of `handleNumberRound` (v3): collect cards from all non-blocked
players, clearing each blocked player's flag and recording `-1` for them,
and track the running maximum together with the indices currently tied for
it (cleared on a strictly larger card, appended on an equal one). -/
def collectPhase (plays : Nat → Int) : Nat → Int → List Nat → List Player → CollectResult
  | _, mx, ws, [] => ⟨[], [], mx, ws⟩
  | i, mx, ws, p :: rest =>
    if p.isBlocked then
      let r := collectPhase plays (i + 1) mx ws rest
      ⟨{ p with isBlocked := false } :: r.players, (-1) :: r.playedCards, r.maxCard, r.winners⟩
    else
      let c := plays i
      if c > mx then
        let r := collectPhase plays (i + 1) c [i] rest
        ⟨p :: r.players, c :: r.playedCards, r.maxCard, r.winners⟩
      else if c = mx then
        let r := collectPhase plays (i + 1) mx (ws ++ [i]) rest
        ⟨p :: r.players, c :: r.playedCards, r.maxCard, r.winners⟩
      else
        let r := collectPhase plays (i + 1) mx ws rest
        ⟨p :: r.players, c :: r.playedCards, r.maxCard, r.winners⟩

/-- The value-0 effect of `handleNumberRound` (v3, step 2): if the
nominated target still holds a number card, one card moves target →
requester; a target with no cards is a no-op. -/
def card0Steal (i targetIdx : Nat) (s : GameState) : GameState :=
  match s.players[targetIdx]? with
  | some t =>
    if t.numberCards > 0 then
      { s with players :=
                 modifyNth (fun q => { q with numberCards := q.numberCards - 1 }) targetIdx
                 (modifyNth (fun q => { q with numberCards := q.numberCards + 1 }) i s.players) }
    else s
  | none => s

/-- The value-7 effect of `handleNumberRound` (v3, step 2): the nominated
target draws `drawFromNumberDeck 2` and `drawFromActionDeck 1`. -/
def card7Penalty (targetIdx : Nat) (s : GameState) : GameState :=
  let r1 := drawFromNumberDeck 2 s
  let r2 := drawFromActionDeck 1 r1.2
  { r2.2 with players :=
                modifyNth
                (fun q => { q with numberCards := q.numberCards + r1.1, actionCards := q.actionCards + r2.1 })
                targetIdx r2.2.players }

/-- Step 2 of `handleNumberRound` (v3): in player order, apply the value-0
steal and the value-7 penalty for every player whose recorded play is 0
resp. 7. -/
def specialEffectsLoop (d : RoundDecisions) (cards : List Int) : List Nat → GameState → GameState
  | [], s => s
  | i :: rest, s =>
    let s1 := if cards.getD i (-1) = 0 then card0Steal i (d.stealTarget i) s else s
    let s2 := if cards.getD i (-1) = 7 then card7Penalty (d.penaltyTarget i) s1 else s1
    specialEffectsLoop d cards rest s2

/-- Single-winner branch of step 3 (v3): the winner sheds one number card
(floor-clamped) and gains a consecutive win. -/
def singleWinnerShed (winnerIdx : Nat) (s : GameState) : GameState :=
  { s with players :=
             modifyNth
             (fun q =>
               { q with numberCards := max 0 (q.numberCards - 1),
                        consecutiveWins := q.consecutiveWins + 1 })
             winnerIdx s.players }

/-- Single-winner branch of step 3 (v3), loser loop: every participating
player other than the winner (recorded play not `-1`) has the streak reset
and draws `drawFromNumberDeck 1`. -/
def losersDrawLoop (winnerIdx : Nat) (cards : List Int) : List Nat → GameState → GameState
  | [], s => s
  | i :: rest, s =>
    if i ≠ winnerIdx ∧ cards.getD i (-1) ≠ -1 then
      let s1 := { s with players := modifyNth (fun q => { q with consecutiveWins := 0 }) i s.players }
      let r := drawFromNumberDeck 1 s1
      losersDrawLoop winnerIdx cards rest
        { r.2 with players := modifyNth (fun q => { q with numberCards := q.numberCards + r.1 }) i r.2.players }
    else losersDrawLoop winnerIdx cards rest s

/-- Tie branch of step 3 (v3): every tied player sheds one number card
(floor-clamped) and has the streak reset. -/
def tieShedLoop : List Nat → List Player → List Player
  | [], ps => ps
  | w :: rest, ps =>
    tieShedLoop rest
      (modifyNth (fun q => { q with numberCards := max 0 (q.numberCards - 1), consecutiveWins := 0 }) w ps)

/-- Tie branch of step 3 (v3), draw loop: every player — the source
iterates `for (auto& p : players)` — draws `drawFromNumberDeck 1`. -/
def allDrawLoop : List Nat → GameState → GameState
  | [], s => s
  | i :: rest, s =>
    let r := drawFromNumberDeck 1 s
    allDrawLoop rest
      { r.2 with players := modifyNth (fun q => { q with numberCards := q.numberCards + r.1 }) i r.2.players }

/-- Bonus choice "(2)" of `checkConsecutiveWins` (v3): every player whose
name differs from the bonus player's name draws `drawFromNumberDeck 2`. -/
def bonusOpponentsDraw (selfName : String) : List Nat → GameState → GameState
  | [], s => s
  | j :: rest, s =>
    if (s.players[j]?.map Player.name).getD selfName ≠ selfName then
      let r := drawFromNumberDeck 2 s
      bonusOpponentsDraw selfName rest
        { r.2 with players := modifyNth (fun q => { q with numberCards := q.numberCards + r.1 }) j r.2.players }
    else bonusOpponentsDraw selfName rest s

/-- `checkConsecutiveWins` (v3): for every player, in order, whose streak
has reached the threshold 2, apply the chosen bonus — draw one action card,
or have every opponent draw two number cards — then reset the streak. -/
def checkConsecutiveWinsLoop (d : RoundDecisions) : List Nat → GameState → GameState
  | [], s => s
  | i :: rest, s =>
    match s.players[i]? with
    | some p =>
      if p.consecutiveWins ≥ 2 then
        let s1 :=
          if d.bonusDrawAction i then
            let r := drawFromActionDeck 1 s
            { r.2 with players := modifyNth (fun q => { q with actionCards := q.actionCards + r.1 }) i r.2.players }
          else
            bonusOpponentsDraw p.name (List.range s.players.length) s
        checkConsecutiveWinsLoop d rest
          { s1 with players := modifyNth (fun q => { q with consecutiveWins := 0 }) i s1.players }
      else checkConsecutiveWinsLoop d rest s
    | none => checkConsecutiveWinsLoop d rest s

/-- `handleDrawChallenge` (v3): with no challenge the zero-count player is
the winner and the game ends; otherwise the nominated challenger's DrawN
card forces the zero-count player to draw `drawFromNumberDeck N` and the
challenger sheds one action card (floor-clamped). -/
def handleDrawChallenge (d : RoundDecisions) (winnerIdx : Nat) (s : GameState) : GameState :=
  if d.challenged winnerIdx then
    let amount : Int := if d.challengePlusTwo winnerIdx then 2 else 4
    let r := drawFromNumberDeck amount s
    let s1 := { r.2 with players :=
                           modifyNth (fun q => { q with numberCards := q.numberCards + r.1 }) winnerIdx r.2.players }
    { s1 with players :=
                modifyNth (fun q => { q with actionCards := max 0 (q.actionCards - 1) })
                (d.challengerIdx winnerIdx) s1.players }
  else
    { s with gameOver := true, winner := nameOf s winnerIdx }

/-- `checkWinCondition` (v3), loop body: each player whose count is 0
enters the challenge phase once; the loop stops at the first confirmed
winner. -/
def checkWinLoop (d : RoundDecisions) : List Nat → GameState → GameState
  | [], s => s
  | i :: rest, s =>
    if (s.players[i]?.map Player.numberCards).getD 1 = 0 then
      let s1 := handleDrawChallenge d i s
      if s1.gameOver then s1 else checkWinLoop d rest s1
    else checkWinLoop d rest s

/-- `checkWinCondition` (v3). -/
def checkWinCondition (d : RoundDecisions) (s : GameState) : GameState :=
  checkWinLoop d (List.range s.players.length) s

/-- Instrumented twin of `checkWinLoop`: the same recursion, additionally
recording, in order, each player index for which the challenge phase
(`handleDrawChallenge`) is entered.  `checkWinTrace_fst` proves that the
state component coincides with `checkWinLoop`. -/
def checkWinTrace (d : RoundDecisions) : List Nat → GameState → GameState × List Nat
  | [], s => (s, [])
  | i :: rest, s =>
    if (s.players[i]?.map Player.numberCards).getD 1 = 0 then
      let s1 := handleDrawChallenge d i s
      if s1.gameOver then (s1, [i])
      else
        let r := checkWinTrace d rest s1
        (r.1, i :: r.2)
    else checkWinTrace d rest s

/-- `handleNumberRound` (v3): collect plays (skipping and unblocking
blocked players), apply the value-0 and value-7 effects in player order,
resolve the winner set (early return when all players were blocked), then
run the bonus evaluator and the win evaluator. -/
def handleNumberRound (d : RoundDecisions) (s : GameState) : GameState :=
  let col := collectPhase d.plays 0 (-1) [] s.players
  let s1 := { s with players := col.players }
  let s2 := specialEffectsLoop d col.playedCards (List.range col.players.length) s1
  if col.winners = [] then s2
  else
    let s3 :=
      if col.winners.length = 1 then
        losersDrawLoop (col.winners.headD 0) col.playedCards
          (List.range s2.players.length) (singleWinnerShed (col.winners.headD 0) s2)
      else
        allDrawLoop (List.range s2.players.length)
          { s2 with players := tieShedLoop col.winners s2.players }
    checkWinCondition d (checkConsecutiveWinsLoop d (List.range s3.players.length) s3)

/-- `handleBlockCard` (v3): a counter-Block makes both players shed one
number card and one action card; otherwise the target is blocked for the
next round and the actor sheds one action card. All sheds floor-clamped. -/
def handleBlockCard (playerIdx targetIdx : Nat) (counter : Bool) (s : GameState) : GameState :=
  if counter then
    { s with players :=
               modifyNth (fun q => { q with actionCards := max 0 (q.actionCards - 1) }) targetIdx
               (modifyNth (fun q => { q with actionCards := max 0 (q.actionCards - 1) }) playerIdx
               (modifyNth (fun q => { q with numberCards := max 0 (q.numberCards - 1) }) targetIdx
              (modifyNth (fun q => { q with numberCards := max 0 (q.numberCards - 1) }) playerIdx
                s.players))) }
  else
    { s with players :=
               modifyNth (fun q => { q with actionCards := max 0 (q.actionCards - 1) }) playerIdx
               (modifyNth (fun q => { q with isBlocked := true }) targetIdx s.players) }

/-- `swap(players[i].numberCards, players[j].numberCards)` together with
the matching swap of the action counts (v3 `handleReverseCard`). -/
def swapCounts (i j : Nat) (ps : List Player) : List Player :=
  match ps[i]?, ps[j]? with
  | some a, some b =>
    modifyNth (fun q => { q with numberCards := a.numberCards, actionCards := a.actionCards }) j
      (modifyNth (fun q => { q with numberCards := b.numberCards, actionCards := b.actionCards }) i ps)
  | _, _ => ps

/-- `handleReverseCard` (v3), translated exactly as written: the hands are
swapped, then the actor's action count is decremented (floor-clamped), then
the hands are swapped again. -/
def handleReverseCard (playerIdx targetIdx : Nat) (s : GameState) : GameState :=
  let ps1 := swapCounts playerIdx targetIdx s.players
  let ps2 := modifyNth (fun q => { q with actionCards := max 0 (q.actionCards - 1) }) playerIdx ps1
  { s with players := swapCounts playerIdx targetIdx ps2 }

/-- `handleColorChangeCard` (v3): every player sheds one number card
(floor-clamped) and the actor sheds one action card (floor-clamped). -/
def handleColorChangeCard (playerIdx : Nat) (s : GameState) : GameState :=
  { s with players :=
             modifyNth (fun q => { q with actionCards := max 0 (q.actionCards - 1) }) playerIdx
             (s.players.map (fun p => { p with numberCards := max 0 (p.numberCards - 1) })) }

/-- `handleDrawCard` (v3): a DrawN play against a nominated target.  With
no counter the target draws `drawFromNumberDeck N` and the actor sheds one
action card.  With a counter of value N', the smaller declarer draws
`drawFromNumberDeck (1 + |N - N'|)` (on a tie both draw 1), and both shed
their action card (floor-clamped). -/
def handleDrawCard (playerIdx : Nat) (amount : Int) (targetIdx : Nat)
    (hasCounter counterPlusTwo : Bool) (s : GameState) : GameState :=
  if hasCounter then
    let oppAmount : Int := if counterPlusTwo then 2 else 4
    let loserDraw := 1 + |amount - oppAmount|
    let s1 :=
      if amount > oppAmount then
        let r := drawFromNumberDeck loserDraw s
        { r.2 with players :=
                     modifyNth (fun q => { q with numberCards := q.numberCards + r.1 }) targetIdx r.2.players }
      else if oppAmount > amount then
        let r := drawFromNumberDeck loserDraw s
        { r.2 with players :=
                     modifyNth (fun q => { q with numberCards := q.numberCards + r.1 }) playerIdx r.2.players }
      else
        let r1 := drawFromNumberDeck 1 s
        let s2 := { r1.2 with players :=
                                modifyNth (fun q => { q with numberCards := q.numberCards + r1.1 }) playerIdx r1.2.players }
        let r2 := drawFromNumberDeck 1 s2
        { r2.2 with players :=
                      modifyNth (fun q => { q with numberCards := q.numberCards + r2.1 }) targetIdx r2.2.players }
    { s1 with players :=
                modifyNth (fun q => { q with actionCards := max 0 (q.actionCards - 1) }) targetIdx
                (modifyNth (fun q => { q with actionCards := max 0 (q.actionCards - 1) }) playerIdx
                s1.players) }
  else
    let r := drawFromNumberDeck amount s
    { r.2 with players :=
                 modifyNth (fun q => { q with actionCards := max 0 (q.actionCards - 1) }) playerIdx
                 (modifyNth (fun q => { q with numberCards := q.numberCards + r.1 }) targetIdx
                 r.2.players) }

/-- The `DRAW_TWO` dispatch case of `handleActionCard` (v3). -/
def handleDrawTwo (playerIdx targetIdx : Nat) (hasCounter counterPlusTwo : Bool)
    (s : GameState) : GameState :=
  handleDrawCard playerIdx 2 targetIdx hasCounter counterPlusTwo s

/-- The `DRAW_FOUR` dispatch case of `handleActionCard` (v3). -/
def handleDrawFour (playerIdx targetIdx : Nat) (hasCounter counterPlusTwo : Bool)
    (s : GameState) : GameState :=
  handleDrawCard playerIdx 4 targetIdx hasCounter counterPlusTwo s

/-- `handleTruthCard` (v3): an unanswered question triggers the chosen
penalty — (1) the actor draws `drawFromActionDeck 2` and the target draws
`drawFromNumberDeck 2`, or (2) the target draws `drawFromNumberDeck 5` —
and the actor then sheds one action card and one number card regardless
(floor-clamped). -/
def handleTruthCard (playerIdx targetIdx : Nat) (answered choiceOne : Bool)
    (s : GameState) : GameState :=
  let s1 :=
    if answered then s
    else if choiceOne then
      let r1 := drawFromActionDeck 2 s
      let s2 := { r1.2 with players :=
                              modifyNth (fun q => { q with actionCards := q.actionCards + r1.1 }) playerIdx r1.2.players }
      let r2 := drawFromNumberDeck 2 s2
      { r2.2 with players :=
                    modifyNth (fun q => { q with numberCards := q.numberCards + r2.1 }) targetIdx r2.2.players }
    else
      let r := drawFromNumberDeck 5 s
      { r.2 with players :=
                   modifyNth (fun q => { q with numberCards := q.numberCards + r.1 }) targetIdx r.2.players }
  { s1 with players :=
              modifyNth (fun q => { q with numberCards := max 0 (q.numberCards - 1) }) playerIdx
              (modifyNth (fun q => { q with actionCards := max 0 (q.actionCards - 1) }) playerIdx
              s1.players) }

/-- `handleDareCard` (v3): a refused dare ends the game immediately with
the actor as winner; a completed dare makes the actor shed one action card
and one number card (floor-clamped). -/
def handleDareCard (playerIdx targetIdx : Nat) (completed : Bool) (s : GameState) : GameState :=
  if completed then
    { s with players :=
               modifyNth (fun q => { q with numberCards := max 0 (q.numberCards - 1) }) playerIdx
               (modifyNth (fun q => { q with actionCards := max 0 (q.actionCards - 1) }) playerIdx
               s.players) }
  else
    { s with gameOver := true, winner := nameOf s playerIdx }

/-- `manualAdjustment` (v3): choice 1 sets the selected player's number
count (validated into `[0,100]`), choice 2 sets the action count
(validated into `[0,50]`), choice 3 resets the streak. -/
def manualAdjustment (pIdx : Nat) (choice : Nat) (newValue : Int) (s : GameState) : GameState :=
  if choice = 1 then
    { s with players := modifyNth (fun q => { q with numberCards := newValue }) pIdx s.players }
  else if choice = 2 then
    { s with players := modifyNth (fun q => { q with actionCards := newValue }) pIdx s.players }
  else
    { s with players := modifyNth (fun q => { q with consecutiveWins := 0 }) pIdx s.players }

/-- The states reachable from `setupGame`'s initial state by the engine's
operations, one constructor per menu-dispatchable operation of the v3
`run` loop.  Each constructor records, as hypotheses, exactly what the
source's validated-input loops (`getValidatedInt`,
`getValidatedPlayerIndex`, menu ranges) guarantee about the interactive
responses, and that the loop only runs while `gameOver` is false. -/
inductive Reachable : GameState → Prop where
  | init (names : List String) : Reachable (initState names)
  | numberRound (s : GameState) (d : RoundDecisions) (h : Reachable s)
      (hg : s.gameOver = false)
      (hplays : ∀ i, i < s.players.length → 0 ≤ d.plays i ∧ d.plays i ≤ 9)
      (hsteal : ∀ i, i < s.players.length →
        d.stealTarget i < s.players.length ∧ d.stealTarget i ≠ i)
      (hpen : ∀ i, i < s.players.length →
        d.penaltyTarget i < s.players.length ∧ d.penaltyTarget i ≠ i)
      (hch : ∀ i, i < s.players.length →
        d.challengerIdx i < s.players.length ∧ d.challengerIdx i ≠ i) :
      Reachable (handleNumberRound d s)
  | blockCard (s : GameState) (i t : Nat) (counter : Bool) (h : Reachable s)
      (hg : s.gameOver = false) (hi : i < s.players.length) (ht : t < s.players.length)
      (hne : t ≠ i) : Reachable (handleBlockCard i t counter s)
  | reverseCard (s : GameState) (i t : Nat) (h : Reachable s)
      (hg : s.gameOver = false) (hi : i < s.players.length) (ht : t < s.players.length)
      (hne : t ≠ i) : Reachable (handleReverseCard i t s)
  | colorChangeCard (s : GameState) (i : Nat) (h : Reachable s)
      (hg : s.gameOver = false) (hi : i < s.players.length) :
      Reachable (handleColorChangeCard i s)
  | drawTwoCard (s : GameState) (i t : Nat) (hasCounter counterPlusTwo : Bool)
      (h : Reachable s) (hg : s.gameOver = false) (hi : i < s.players.length)
      (ht : t < s.players.length) (hne : t ≠ i) :
      Reachable (handleDrawTwo i t hasCounter counterPlusTwo s)
  | drawFourCard (s : GameState) (i t : Nat) (hasCounter counterPlusTwo : Bool)
      (h : Reachable s) (hg : s.gameOver = false) (hi : i < s.players.length)
      (ht : t < s.players.length) (hne : t ≠ i) :
      Reachable (handleDrawFour i t hasCounter counterPlusTwo s)
  | truthCard (s : GameState) (i t : Nat) (answered choiceOne : Bool) (h : Reachable s)
      (hg : s.gameOver = false) (hi : i < s.players.length) (ht : t < s.players.length)
      (hne : t ≠ i) : Reachable (handleTruthCard i t answered choiceOne s)
  | dareCard (s : GameState) (i t : Nat) (completed : Bool) (h : Reachable s)
      (hg : s.gameOver = false) (hi : i < s.players.length) (ht : t < s.players.length)
      (hne : t ≠ i) : Reachable (handleDareCard i t completed s)
  | adjust (s : GameState) (i : Nat) (choice : Nat) (v : Int) (h : Reachable s)
      (hg : s.gameOver = false) (hi : i < s.players.length)
      (hv : (choice = 1 ∧ 0 ≤ v ∧ v ≤ 100) ∨ (choice = 2 ∧ 0 ≤ v ∧ v ≤ 50) ∨ choice = 3) :
      Reachable (manualAdjustment i choice v s)

/-- Sum of all players' number-card counts (for the conservation law). -/
def totalNumberCards (ps : List Player) : Int :=
  (ps.map Player.numberCards).sum

/-- The absolute indices (starting at `k`) of the non-blocked players of a
suffix of the player vector — exactly the players whose winner-set entry
the collection loop of `handleNumberRound` may record. -/
def nonBlockedIndices : Nat → List Player → List Nat
  | _, [] => []
  | k, p :: rest =>
    if p.isBlocked then nonBlockedIndices (k + 1) rest
    else k :: nonBlockedIndices (k + 1) rest

/-- Every player in the vector has a cleared blocked flag. -/
def AllUnblocked (ps : List Player) : Prop :=
  ∀ p ∈ ps, p.isBlocked = false

/-- `s2` has no more cards in either deck pool than `s1` (deck pools only
ever shrink: there is no reshuffle and no return to the deck). -/
def DeckLE (s2 s1 : GameState) : Prop :=
  s2.numberDeckRemaining ≤ s1.numberDeckRemaining ∧
  s2.actionDeckRemaining ≤ s1.actionDeckRemaining

/-- Both player counts of a single player are non-negative. -/
def PlayerNonneg (p : Player) : Prop :=
  0 ≤ p.numberCards ∧ 0 ≤ p.actionCards

/-- The spec's state invariant: every player's `numberCount` and
`actionCount`, and both deck pools, are non-negative. -/
def Inv (s : GameState) : Prop :=
  (∀ p ∈ s.players, PlayerNonneg p) ∧
  0 ≤ s.numberDeckRemaining ∧ 0 ≤ s.actionDeckRemaining

/-- Round-decision fixture for a tied number round: players 0 and 1 both
declare a 9, nobody challenges, no special values are in play. -/
def tieDecisions : RoundDecisions :=
  ⟨fun i => if i = 0 then 9 else if i = 1 then 9 else 0,
   fun _ => 0, fun _ => 0, fun _ => false, fun _ => false, fun _ => 0, fun _ => false⟩

/-- A three-player state for the tie analysis: players "A" and "B" are
active, player "C" sits out the round blocked. -/
def tieState (a b c aA aB aC wA wB wC nd ad : Int) (w : String) : GameState :=
  ⟨[⟨"A", a, aA, wA, false⟩, ⟨"B", b, aB, wB, false⟩, ⟨"C", c, aC, wC, true⟩],
   nd, ad, false, w⟩

/-- The state of `tieState` after collection, special effects and the tied
shed, before the all-players draw loop. -/
def tieMid (a b c aA aB aC wC nd ad : Int) (w : String) : GameState :=
  ⟨[⟨"A", max 0 (a - 1), aA, 0, false⟩, ⟨"B", max 0 (b - 1), aB, 0, false⟩,
    ⟨"C", c, aC, wC, false⟩], nd, ad, false, w⟩

/-- The state of `tieState` after the full tied number round: both tied
players shed one (clamped) and drew one, and the blocked player "C" also
drew one. -/
def tieFinal (a b c aA aB aC wC nd ad : Int) (w : String) : GameState :=
  ⟨[⟨"A", max 0 (a - 1) + 1, aA, 0, false⟩, ⟨"B", max 0 (b - 1) + 1, aB, 0, false⟩,
    ⟨"C", c + 1, aC, wC, false⟩], nd, ad, false, w⟩

/-- A two-player state for the win-evaluation analysis: player 0 has
reached a `numberCards` count of exactly 0, player 1 has count `b`. -/
def cwState (n0 : String) (a0 w0 : Int) (n1 : String) (b a1 w1 : Int)
    (nd ad : Int) (w : String) : GameState :=
  ⟨[⟨n0, 0, a0, w0, false⟩, ⟨n1, b, a1, w1, false⟩], nd, ad, false, w⟩

/-- Win-evaluation decisions: nobody challenges. -/
def cwNoChallenge : RoundDecisions :=
  ⟨fun _ => 0, fun _ => 0, fun _ => 0, fun _ => false, fun _ => false, fun _ => 0,
   fun _ => false⟩

/-- Win-evaluation decisions: every zero-count player is challenged by
player 1 with a Draw-Two ("+2") card. -/
def cwChallenge : RoundDecisions :=
  ⟨fun _ => 0, fun _ => 0, fun _ => 0, fun _ => false, fun _ => true, fun _ => 1,
   fun _ => true⟩

end SplitUno

namespace SplitUno

theorem modifyNth_length (f : α → α) (i : Nat) (l : List α) :
    (modifyNth f i l).length = l.length := by
  induction l generalizing i with
  | nil => cases i <;> rfl
  | cons a as ih =>
    cases i with
    | zero => rfl
    | succ n => simp [modifyNth, ih]

theorem getElem?_modifyNth (f : α → α) (i j : Nat) (l : List α) :
    (modifyNth f i l)[j]? = if i = j then l[j]?.map f else l[j]? := by
  induction l generalizing i j with
  | nil => simp [modifyNth]
  | cons a as ih =>
    cases i with
    | zero => cases j <;> simp [modifyNth]
    | succ n =>
      cases j with
      | zero => simp [modifyNth]
      | succ m =>
        simp only [modifyNth, List.getElem?_cons_succ, ih]
        by_cases h : n = m <;> simp [h]

theorem of_mem_modifyNth {f : α → α} {i : Nat} {l : List α} {p : α}
    (h : p ∈ modifyNth f i l) : p ∈ l ∨ ∃ q ∈ l, p = f q := by
  induction l generalizing i with
  | nil => simp [modifyNth] at h
  | cons a as ih =>
    cases i with
    | zero =>
      simp only [modifyNth, List.mem_cons] at h
      rcases h with h | h
      · exact Or.inr ⟨a, by simp, h⟩
      · exact Or.inl (by simp [h])
    | succ n =>
      simp only [modifyNth, List.mem_cons] at h
      rcases h with h | h
      · exact Or.inl (by simp [h])
      · rcases ih h with h1 | ⟨q, hq, h2⟩
        · exact Or.inl (by simp [h1])
        · exact Or.inr ⟨q, by simp [hq], h2⟩

theorem totalNumberCards_modifyNth (f : Player → Player) (i : Nat) (l : List Player)
    (hi : i < l.length) :
    totalNumberCards (modifyNth f i l)
      = totalNumberCards l + (f l[i]).numberCards - l[i].numberCards := by
  induction l generalizing i with
  | nil => simp at hi
  | cons a as ih =>
    cases i with
    | zero =>
      simp [modifyNth, totalNumberCards]
      ring
    | succ n =>
      have hn : n < as.length := by simpa using hi
      have := ih n hn
      simp [modifyNth, totalNumberCards] at this ⊢
      omega

theorem drawFromNumberDeck_frame (n : Int) (s : GameState) :
    (drawFromNumberDeck n s).2.players = s.players ∧
    (drawFromNumberDeck n s).2.actionDeckRemaining = s.actionDeckRemaining ∧
    (drawFromNumberDeck n s).2.gameOver = s.gameOver ∧
    (drawFromNumberDeck n s).2.winner = s.winner := by
  unfold drawFromNumberDeck
  split <;> simp

theorem drawFromActionDeck_frame (n : Int) (s : GameState) :
    (drawFromActionDeck n s).2.players = s.players ∧
    (drawFromActionDeck n s).2.numberDeckRemaining = s.numberDeckRemaining ∧
    (drawFromActionDeck n s).2.gameOver = s.gameOver ∧
    (drawFromActionDeck n s).2.winner = s.winner := by
  unfold drawFromActionDeck
  split <;> simp

/-- C6: with a non-negative pool `r` and a non-negative request `n`, both
deck draws return `min n r`, decrement the pool by exactly the returned
amount, return `0` when the pool is already `0`, and never drive the pool
negative. -/
theorem draw_clamped (s : GameState) (n : Int)
    (hr : 0 ≤ s.numberDeckRemaining) (hra : 0 ≤ s.actionDeckRemaining)
    (hn : 0 ≤ n) :
    (drawFromNumberDeck n s).1 = min n s.numberDeckRemaining ∧
    (drawFromNumberDeck n s).2.numberDeckRemaining =
      s.numberDeckRemaining - (drawFromNumberDeck n s).1 ∧
    (s.numberDeckRemaining = 0 → (drawFromNumberDeck n s).1 = 0) ∧
    0 ≤ (drawFromNumberDeck n s).2.numberDeckRemaining ∧
    (drawFromActionDeck n s).1 = min n s.actionDeckRemaining ∧
    (drawFromActionDeck n s).2.actionDeckRemaining =
      s.actionDeckRemaining - (drawFromActionDeck n s).1 ∧
    (s.actionDeckRemaining = 0 → (drawFromActionDeck n s).1 = 0) ∧
    0 ≤ (drawFromActionDeck n s).2.actionDeckRemaining := by
  unfold drawFromNumberDeck drawFromActionDeck
  split <;> split <;>
    simp_all <;> omega

/-- Witness for `draw_clamped`: a request of 5 against a number pool of 3
and an action pool of 0 draws 3 number cards (a clamped partial draw) and
0 action cards, leaving both pools at 0. -/
theorem draw_clamped_witness :
    (drawFromNumberDeck 5 ⟨[], 3, 0, false, ""⟩).1 = min 5 3 ∧
    (drawFromNumberDeck 5 ⟨[], 3, 0, false, ""⟩).2.numberDeckRemaining =
      3 - (drawFromNumberDeck 5 ⟨[], 3, 0, false, ""⟩).1 ∧
    ((3 : Int) = 0 → (drawFromNumberDeck 5 ⟨[], 3, 0, false, ""⟩).1 = 0) ∧
    0 ≤ (drawFromNumberDeck 5 ⟨[], 3, 0, false, ""⟩).2.numberDeckRemaining ∧
    (drawFromActionDeck 5 ⟨[], 3, 0, false, ""⟩).1 = min 5 0 ∧
    (drawFromActionDeck 5 ⟨[], 3, 0, false, ""⟩).2.actionDeckRemaining =
      0 - (drawFromActionDeck 5 ⟨[], 3, 0, false, ""⟩).1 ∧
    ((0 : Int) = 0 → (drawFromActionDeck 5 ⟨[], 3, 0, false, ""⟩).1 = 0) ∧
    0 ≤ (drawFromActionDeck 5 ⟨[], 3, 0, false, ""⟩).2.actionDeckRemaining :=
  draw_clamped ⟨[], 3, 0, false, ""⟩ 5 (by decide) (by decide) (by decide)

end SplitUno

namespace SplitUno

/-- C2: the value-0 steal of the number round moves exactly one number
card from the nominated target to the requester when the target still has
one (requester +1, target −1, all other players and both decks
untouched), is a complete no-op when the target has none, never changes
any action count, and conserves the sum of all number counts plus the
number pool. -/
theorem card0Steal_transfer (s : GameState) (i t : Nat)
    (hi : i < s.players.length) (ht : t < s.players.length) (hne : i ≠ t) :
    (0 < s.players[t].numberCards →
      (card0Steal i t s).players[i]?.map Player.numberCards
          = some (s.players[i].numberCards + 1) ∧
      (card0Steal i t s).players[t]?.map Player.numberCards
          = some (s.players[t].numberCards - 1) ∧
      (∀ j, j ≠ i → j ≠ t → (card0Steal i t s).players[j]? = s.players[j]?)) ∧
    (s.players[t].numberCards = 0 → card0Steal i t s = s) ∧
    (∀ j : Nat, (card0Steal i t s).players[j]?.map Player.actionCards
        = s.players[j]?.map Player.actionCards) ∧
    (card0Steal i t s).numberDeckRemaining = s.numberDeckRemaining ∧
    (card0Steal i t s).actionDeckRemaining = s.actionDeckRemaining ∧
    totalNumberCards (card0Steal i t s).players + (card0Steal i t s).numberDeckRemaining
      = totalNumberCards s.players + s.numberDeckRemaining := by
  have hts : s.players[t]? = some s.players[t] := List.getElem?_eq_getElem ht
  have his : s.players[i]? = some s.players[i] := List.getElem?_eq_getElem hi
  have hA : card0Steal i t s
      = if s.players[t].numberCards > 0 then
          { s with players :=
                     modifyNth (fun q => { q with numberCards := q.numberCards - 1 }) t
                     (modifyNth (fun q => { q with numberCards := q.numberCards + 1 }) i
                       s.players) }
        else s := by
    unfold card0Steal
    rw [hts]
  by_cases hpos : s.players[t].numberCards > 0
  · rw [hA, if_pos hpos]
    refine ⟨fun _ => ⟨?_, ?_, ?_⟩, fun h0 => absurd h0 (by omega), ?_, rfl, rfl, ?_⟩
    · show (modifyNth _ t _)[i]?.map Player.numberCards = _
      rw [getElem?_modifyNth _ t i, if_neg (Ne.symm hne), getElem?_modifyNth _ i i,
        if_pos rfl, his]
      rfl
    · show (modifyNth _ t _)[t]?.map Player.numberCards = _
      rw [getElem?_modifyNth _ t t, if_pos rfl, getElem?_modifyNth _ i t,
        if_neg hne, hts]
      rfl
    · intro j hji hjt
      show (modifyNth _ t _)[j]? = _
      rw [getElem?_modifyNth _ t j, if_neg (fun h => hjt h.symm),
        getElem?_modifyNth _ i j, if_neg (fun h => hji h.symm)]
    · intro j
      show (modifyNth _ t _)[j]?.map Player.actionCards = _
      rw [getElem?_modifyNth _ t j, getElem?_modifyNth _ i j]
      by_cases h1 : t = j <;> by_cases h2 : i = j <;>
        simp only [h1, h2, ite_true, ite_false, Option.map_map] <;>
          cases s.players[j]? <;> rfl
    · show totalNumberCards (modifyNth _ t _) + s.numberDeckRemaining
        = totalNumberCards s.players + s.numberDeckRemaining
      have hlent : t < (modifyNth (fun q => { q with numberCards := q.numberCards + 1 }) i
          s.players).length := by rw [modifyNth_length]; exact ht
      have e1 := totalNumberCards_modifyNth
        (fun q => { q with numberCards := q.numberCards - 1 }) t _ hlent
      have e2 := totalNumberCards_modifyNth
        (fun q => { q with numberCards := q.numberCards + 1 }) i s.players hi
      have e3 : (modifyNth (fun q => { q with numberCards := q.numberCards + 1 }) i
          s.players)[t]? = s.players[t]? := by
        rw [getElem?_modifyNth _ i t, if_neg hne]
      have e4 : (modifyNth (fun q => { q with numberCards := q.numberCards + 1 }) i
          s.players)[t] = s.players[t] := by
        have := List.getElem?_eq_getElem hlent
        rw [e3, hts] at this
        exact Option.some.inj this.symm
      rw [e1, e4, e2]
      simp only [Player.mk.injEq]
      omega
  · rw [hA, if_neg hpos]
    exact ⟨fun h => absurd h hpos, fun _ => rfl, fun j => rfl, rfl, rfl, rfl⟩

/-- Witness for `card0Steal_transfer`: with players A (5 number cards) and
B (7), player 0 stealing from player 1 leaves A at 6. -/
theorem card0Steal_transfer_witness :
    (card0Steal 0 1
        ⟨[⟨"A", 5, 0, 0, false⟩, ⟨"B", 7, 0, 0, false⟩], 68, 32, false, ""⟩).players[0]?.map
      Player.numberCards = some 6 := by
  have h := card0Steal_transfer
    ⟨[⟨"A", 5, 0, 0, false⟩, ⟨"B", 7, 0, 0, false⟩], 68, 32, false, ""⟩ 0 1
    (by decide) (by decide) (by decide)
  simpa using (h.1 (by decide)).1

/-- C3: at the concrete state with actor A holding (10 number, 5 action)
and target B holding (3, 2), the v3 Reverse handler — swap, decrement,
swap again — leaves the actor's hand completely unchanged and removes one
action card from the target instead; the hands are not exchanged and the
played card does not leave the actor's pre-swap hand, contrary to the
handler's own comment ("1. Decrement player's action card count (the card
played). 2. Swap."). -/
theorem reverseCard_double_swap :
    (handleReverseCard 0 1
        ⟨[⟨"A", 10, 5, 0, false⟩, ⟨"B", 3, 2, 0, false⟩], 68, 32, false, ""⟩).players
      = [⟨"A", 10, 5, 0, false⟩, ⟨"B", 3, 1, 0, false⟩] ∧
    (handleReverseCard 0 1
        ⟨[⟨"A", 10, 5, 0, false⟩, ⟨"B", 3, 2, 0, false⟩], 68, 32, false, ""⟩).players
      ≠ [⟨"A", 3, 2, 0, false⟩, ⟨"B", 10, 4, 0, false⟩] := by
  constructor <;> decide

/-- C9: a refused Dare ends the game immediately with the actor as winner
and mutates nothing else — the result is exactly the input state with
`gameOver := true` and `winner` set to the actor's name. -/
theorem dareCard_refusal_frame (i t : Nat) (s : GameState) :
    handleDareCard i t false s = { s with gameOver := true, winner := nameOf s i } := by
  rfl

end SplitUno


namespace SplitUno

theorem deckLE_refl (s : GameState) : DeckLE s s :=
  ⟨le_refl _, le_refl _⟩

theorem deckLE_trans {s3 s2 s1 : GameState} (h32 : DeckLE s3 s2) (h21 : DeckLE s2 s1) :
    DeckLE s3 s1 :=
  ⟨le_trans h32.1 h21.1, le_trans h32.2 h21.2⟩

theorem deckLE_players (s : GameState) (ps : List Player) :
    DeckLE { s with players := ps } s :=
  ⟨le_refl _, le_refl _⟩

theorem drawFromNumberDeck_deckLE (n : Int) (s : GameState) (hn : 0 ≤ n) :
    DeckLE (drawFromNumberDeck n s).2 s := by
  simp only [drawFromNumberDeck, DeckLE]
  split_ifs <;> simp_all <;> omega

theorem drawFromActionDeck_deckLE (n : Int) (s : GameState) (hn : 0 ≤ n) :
    DeckLE (drawFromActionDeck n s).2 s := by
  simp only [drawFromActionDeck, DeckLE]
  split_ifs <;> simp_all <;> omega

theorem card0Steal_deckLE (i t : Nat) (s : GameState) : DeckLE (card0Steal i t s) s := by
  unfold card0Steal
  split
  · split
    · exact ⟨le_refl _, le_refl _⟩
    · exact deckLE_refl s
  · exact deckLE_refl s

theorem card7Penalty_deckLE (t : Nat) (s : GameState) : DeckLE (card7Penalty t s) s := by
  simp only [card7Penalty, drawFromNumberDeck, drawFromActionDeck, DeckLE]
  split_ifs <;> simp_all <;> omega

theorem singleWinnerShed_deckLE (w : Nat) (s : GameState) :
    DeckLE (singleWinnerShed w s) s :=
  ⟨le_refl _, le_refl _⟩

theorem specialEffectsLoop_deckLE (d : RoundDecisions) (cards : List Int)
    (l : List Nat) (s : GameState) : DeckLE (specialEffectsLoop d cards l s) s := by
  induction l generalizing s with
  | nil => exact deckLE_refl s
  | cons i rest ih =>
    simp only [specialEffectsLoop]
    refine deckLE_trans (ih _) ?_
    have h0 : DeckLE (if cards.getD i (-1) = 0 then card0Steal i (d.stealTarget i) s else s) s := by
      split
      · exact card0Steal_deckLE _ _ _
      · exact deckLE_refl s
    split
    · exact deckLE_trans (card7Penalty_deckLE _ _) h0
    · exact h0

theorem losersDrawLoop_deckLE (w : Nat) (cards : List Int) (l : List Nat)
    (s : GameState) : DeckLE (losersDrawLoop w cards l s) s := by
  induction l generalizing s with
  | nil => exact deckLE_refl s
  | cons i rest ih =>
    simp only [losersDrawLoop]
    split
    · refine deckLE_trans (ih _) ?_
      simp only [drawFromNumberDeck, DeckLE]
      split_ifs <;> simp_all <;> omega
    · exact ih s

theorem allDrawLoop_deckLE (l : List Nat) (s : GameState) :
    DeckLE (allDrawLoop l s) s := by
  induction l generalizing s with
  | nil => exact deckLE_refl s
  | cons i rest ih =>
    simp only [allDrawLoop]
    refine deckLE_trans (ih _) ?_
    simp only [drawFromNumberDeck, DeckLE]
    split_ifs <;> simp_all <;> omega

theorem bonusOpponentsDraw_deckLE (nm : String) (l : List Nat) (s : GameState) :
    DeckLE (bonusOpponentsDraw nm l s) s := by
  induction l generalizing s with
  | nil => exact deckLE_refl s
  | cons j rest ih =>
    simp only [bonusOpponentsDraw]
    split
    · refine deckLE_trans (ih _) ?_
      simp only [drawFromNumberDeck, DeckLE]
      split_ifs <;> simp_all <;> omega
    · exact ih s

theorem checkConsecutiveWinsLoop_deckLE (d : RoundDecisions) (l : List Nat)
    (s : GameState) : DeckLE (checkConsecutiveWinsLoop d l s) s := by
  induction l generalizing s with
  | nil => exact deckLE_refl s
  | cons i rest ih =>
    simp only [checkConsecutiveWinsLoop]
    split
    · split
      · refine deckLE_trans (ih _) ?_
        split
        · simp only [drawFromActionDeck, DeckLE]
          split_ifs <;> simp_all <;> omega
        · exact deckLE_trans (deckLE_players _ _) (bonusOpponentsDraw_deckLE _ _ s)
      · exact ih s
    · exact ih s

theorem handleDrawChallenge_deckLE (d : RoundDecisions) (w : Nat) (s : GameState) :
    DeckLE (handleDrawChallenge d w s) s := by
  simp only [handleDrawChallenge, drawFromNumberDeck, DeckLE]
  split_ifs <;> simp_all <;> omega

theorem checkWinLoop_deckLE (d : RoundDecisions) (l : List Nat) (s : GameState) :
    DeckLE (checkWinLoop d l s) s := by
  induction l generalizing s with
  | nil => exact deckLE_refl s
  | cons i rest ih =>
    simp only [checkWinLoop]
    split
    · split
      · exact handleDrawChallenge_deckLE d i s
      · exact deckLE_trans (ih _) (handleDrawChallenge_deckLE d i s)
    · exact ih s

theorem checkWinCondition_deckLE (d : RoundDecisions) (s : GameState) :
    DeckLE (checkWinCondition d s) s :=
  checkWinLoop_deckLE d _ s

theorem handleNumberRound_deckLE (d : RoundDecisions) (s : GameState) :
    DeckLE (handleNumberRound d s) s := by
  simp only [handleNumberRound]
  split
  · exact deckLE_trans (specialEffectsLoop_deckLE d _ _ _) (deckLE_players s _)
  · refine deckLE_trans (checkWinCondition_deckLE d _) ?_
    refine deckLE_trans (checkConsecutiveWinsLoop_deckLE d _ _) ?_
    split
    · exact deckLE_trans (losersDrawLoop_deckLE _ _ _ _)
        (deckLE_trans (singleWinnerShed_deckLE _ _)
          (deckLE_trans (specialEffectsLoop_deckLE d _ _ _) (deckLE_players s _)))
    · exact deckLE_trans (allDrawLoop_deckLE _ _)
        (deckLE_trans (deckLE_players _ _)
          (deckLE_trans (specialEffectsLoop_deckLE d _ _ _) (deckLE_players s _)))

theorem handleDrawCard_deckLE (i : Nat) (amount : Int) (t : Nat) (hc ct : Bool)
    (s : GameState) (ha : 0 ≤ amount) : DeckLE (handleDrawCard i amount t hc ct s) s := by
  simp only [handleDrawCard, drawFromNumberDeck, DeckLE]
  split_ifs <;> simp_all
  all_goals
    have h2 := abs_nonneg (amount - (2 : Int))
    have h4 := abs_nonneg (amount - (4 : Int))
    omega

theorem handleTruthCard_deckLE (i t : Nat) (a c : Bool) (s : GameState) :
    DeckLE (handleTruthCard i t a c s) s := by
  simp only [handleTruthCard, drawFromNumberDeck, drawFromActionDeck, DeckLE]
  split_ifs <;> simp_all <;> omega

/-- C10: no engine operation ever puts a card back into either deck pool —
across a number round (with its bonus and win evaluation), every action
handler, a stand-alone bonus or win evaluation, and a manual adjustment,
`numberDeckRemaining` and `actionDeckRemaining` never increase. -/
theorem decks_never_grow :
    (∀ d s, DeckLE (handleNumberRound d s) s) ∧
    (∀ i t c s, DeckLE (handleBlockCard i t c s) s) ∧
    (∀ i t s, DeckLE (handleReverseCard i t s) s) ∧
    (∀ i s, DeckLE (handleColorChangeCard i s) s) ∧
    (∀ i t hc ct s, DeckLE (handleDrawTwo i t hc ct s) s) ∧
    (∀ i t hc ct s, DeckLE (handleDrawFour i t hc ct s) s) ∧
    (∀ i t a c s, DeckLE (handleTruthCard i t a c s) s) ∧
    (∀ i t c s, DeckLE (handleDareCard i t c s) s) ∧
    (∀ d l s, DeckLE (checkConsecutiveWinsLoop d l s) s) ∧
    (∀ d s, DeckLE (checkWinCondition d s) s) ∧
    (∀ i c v s, DeckLE (manualAdjustment i c v s) s) := by
  refine ⟨handleNumberRound_deckLE, ?_, ?_, ?_, ?_, ?_, handleTruthCard_deckLE, ?_,
    checkConsecutiveWinsLoop_deckLE, checkWinCondition_deckLE, ?_⟩
  · intro i t c s
    unfold handleBlockCard
    split <;> exact ⟨le_refl _, le_refl _⟩
  · intro i t s
    exact ⟨le_refl _, le_refl _⟩
  · intro i s
    exact ⟨le_refl _, le_refl _⟩
  · intro i t hc ct s
    exact handleDrawCard_deckLE i 2 t hc ct s (by omega)
  · intro i t hc ct s
    exact handleDrawCard_deckLE i 4 t hc ct s (by omega)
  · intro i t c s
    unfold handleDareCard
    split <;> exact ⟨le_refl _, le_refl _⟩
  · intro i c v s
    unfold manualAdjustment
    split
    · exact ⟨le_refl _, le_refl _⟩
    · split <;> exact ⟨le_refl _, le_refl _⟩

end SplitUno

namespace SplitUno

theorem playerNonneg_add {q : Player} (h : PlayerNonneg q) {k : Int} (hk : 0 ≤ k) :
    PlayerNonneg { q with numberCards := q.numberCards + k } :=
  ⟨add_nonneg h.1 hk, h.2⟩

theorem playersNonneg_modifyNth_at {ps : List Player} (h : ∀ p ∈ ps, PlayerNonneg p)
    (f : Player → Player) (i : Nat)
    (hf : ∀ hi : i < ps.length, PlayerNonneg (f ps[i])) :
    ∀ p ∈ modifyNth f i ps, PlayerNonneg p := by
  induction ps generalizing i with
  | nil =>
    intro p hp
    cases i <;> simp [modifyNth] at hp
  | cons a as ih =>
    intro p hp
    cases i with
    | zero =>
      simp only [modifyNth, List.mem_cons] at hp
      rcases hp with rfl | hp
      · exact hf (by simp)
      · exact h p (by simp [hp])
    | succ n =>
      simp only [modifyNth, List.mem_cons] at hp
      rcases hp with rfl | hp
      · exact h p (by simp)
      · refine ih (fun q hq => h q (by simp [hq])) n ?_ p hp
        intro hn
        have := hf (by simpa using Nat.succ_lt_succ hn)
        simpa using this

theorem playersNonneg_modifyNth {ps : List Player} (h : ∀ p ∈ ps, PlayerNonneg p)
    (f : Player → Player) (i : Nat)
    (hf : ∀ q, PlayerNonneg q → PlayerNonneg (f q)) :
    ∀ p ∈ modifyNth f i ps, PlayerNonneg p :=
  playersNonneg_modifyNth_at h f i
    (fun hi => hf _ (h _ (List.getElem_mem hi)))

theorem drawFromNumberDeck_inv (n : Int) (s : GameState) (hn : 0 ≤ n) (h : Inv s) :
    Inv (drawFromNumberDeck n s).2 ∧ 0 ≤ (drawFromNumberDeck n s).1 := by
  obtain ⟨hp, hnum, hact⟩ := h
  have hfr := drawFromNumberDeck_frame n s
  have hdeck : 0 ≤ (drawFromNumberDeck n s).2.numberDeckRemaining ∧
      0 ≤ (drawFromNumberDeck n s).1 := by
    simp only [drawFromNumberDeck]
    split_ifs <;> simp_all <;> omega
  exact ⟨⟨by rw [hfr.1]; exact hp, hdeck.1, by rw [hfr.2.1]; exact hact⟩, hdeck.2⟩

theorem drawFromActionDeck_inv (n : Int) (s : GameState) (hn : 0 ≤ n) (h : Inv s) :
    Inv (drawFromActionDeck n s).2 ∧ 0 ≤ (drawFromActionDeck n s).1 := by
  obtain ⟨hp, hnum, hact⟩ := h
  have hfr := drawFromActionDeck_frame n s
  have hdeck : 0 ≤ (drawFromActionDeck n s).2.actionDeckRemaining ∧
      0 ≤ (drawFromActionDeck n s).1 := by
    simp only [drawFromActionDeck]
    split_ifs <;> simp_all <;> omega
  exact ⟨⟨by rw [hfr.1]; exact hp, by rw [hfr.2.1]; exact hnum, hdeck.1⟩, hdeck.2⟩

theorem inv_setPlayers {s : GameState} (h : Inv s) {ps : List Player}
    (hps : ∀ p ∈ ps, PlayerNonneg p) : Inv { s with players := ps } :=
  ⟨hps, h.2.1, h.2.2⟩

theorem card0Steal_inv (i t : Nat) (s : GameState) (h : Inv s) :
    Inv (card0Steal i t s) := by
  unfold card0Steal
  split
  case h_1 p heq =>
    split_ifs with hpos
    · refine inv_setPlayers h ?_
      have hinner : ∀ q ∈ modifyNth
          (fun q => { q with numberCards := q.numberCards + 1 }) i s.players,
          PlayerNonneg q :=
        playersNonneg_modifyNth h.1 _ i
          (fun q hq => playerNonneg_add hq zero_le_one)
      refine playersNonneg_modifyNth_at hinner _ t ?_
      intro hlt
      have hlt0 : t < s.players.length := by
        have := modifyNth_length
          (fun q => { q with numberCards := q.numberCards + 1 }) i s.players
        omega
      have hgt : (modifyNth (fun q => { q with numberCards := q.numberCards + 1 })
          i s.players)[t]? = if i = t then some { p with numberCards := p.numberCards + 1 }
            else some p := by
        rw [getElem?_modifyNth]
        rw [heq]
        split <;> rfl
      have hsome := List.getElem?_eq_getElem hlt
      rw [hgt] at hsome
      have hpmem : p ∈ s.players := List.getElem?_mem heq
      have hpn := h.1 p hpmem
      split at hsome
      · have he := Option.some.inj hsome
        rw [← he]
        exact ⟨by show (0 : Int) ≤ p.numberCards + 1 - 1; omega, hpn.2⟩
      · have he := Option.some.inj hsome
        rw [← he]
        exact ⟨by show (0 : Int) ≤ p.numberCards - 1; omega, hpn.2⟩
    · exact h
  case h_2 => exact h

theorem card7Penalty_inv (t : Nat) (s : GameState) (h : Inv s) :
    Inv (card7Penalty t s) := by
  unfold card7Penalty
  have h1 := drawFromNumberDeck_inv 2 s (by omega) h
  have h2 := drawFromActionDeck_inv 1 (drawFromNumberDeck 2 s).2 (by omega) h1.1
  refine inv_setPlayers h2.1 ?_
  refine playersNonneg_modifyNth h2.1.1 _ t ?_
  intro q hq
  exact ⟨add_nonneg hq.1 h1.2, add_nonneg hq.2 h2.2⟩

theorem singleWinnerShed_inv (w : Nat) (s : GameState) (h : Inv s) :
    Inv (singleWinnerShed w s) := by
  unfold singleWinnerShed
  refine inv_setPlayers h ?_
  refine playersNonneg_modifyNth h.1 _ w ?_
  intro q hq
  exact ⟨le_max_left _ _, hq.2⟩

theorem specialEffectsLoop_inv (d : RoundDecisions) (cards : List Int)
    (l : List Nat) (s : GameState) (h : Inv s) :
    Inv (specialEffectsLoop d cards l s) := by
  induction l generalizing s with
  | nil => exact h
  | cons i rest ih =>
    simp only [specialEffectsLoop]
    apply ih
    have h1 : Inv (if cards.getD i (-1) = 0 then card0Steal i (d.stealTarget i) s else s) := by
      split
      · exact card0Steal_inv _ _ _ h
      · exact h
    split
    · exact card7Penalty_inv _ _ h1
    · exact h1

theorem losersDrawLoop_inv (w : Nat) (cards : List Int) (l : List Nat)
    (s : GameState) (h : Inv s) : Inv (losersDrawLoop w cards l s) := by
  induction l generalizing s with
  | nil => exact h
  | cons i rest ih =>
    simp only [losersDrawLoop]
    split
    · apply ih
      have h1 := inv_setPlayers h
        (playersNonneg_modifyNth h.1 (fun q => { q with consecutiveWins := 0 }) i
          (fun q hq => ⟨hq.1, hq.2⟩))
      have h2 := drawFromNumberDeck_inv 1 _ (by omega) h1
      refine inv_setPlayers h2.1 ?_
      refine playersNonneg_modifyNth h2.1.1 _ i ?_
      intro q hq
      exact playerNonneg_add hq h2.2
    · exact ih s h

theorem allDrawLoop_inv (l : List Nat) (s : GameState) (h : Inv s) :
    Inv (allDrawLoop l s) := by
  induction l generalizing s with
  | nil => exact h
  | cons i rest ih =>
    simp only [allDrawLoop]
    apply ih
    have h2 := drawFromNumberDeck_inv 1 s (by omega) h
    refine inv_setPlayers h2.1 ?_
    refine playersNonneg_modifyNth h2.1.1 _ i ?_
    intro q hq
    exact playerNonneg_add hq h2.2

theorem tieShedLoop_nonneg (l : List Nat) (ps : List Player)
    (h : ∀ p ∈ ps, PlayerNonneg p) : ∀ p ∈ tieShedLoop l ps, PlayerNonneg p := by
  induction l generalizing ps with
  | nil => exact h
  | cons w rest ih =>
    simp only [tieShedLoop]
    apply ih
    refine playersNonneg_modifyNth h _ w ?_
    intro q hq
    exact ⟨le_max_left _ _, hq.2⟩

end SplitUno

namespace SplitUno

theorem bonusOpponentsDraw_inv (nm : String) (l : List Nat) (s : GameState)
    (h : Inv s) : Inv (bonusOpponentsDraw nm l s) := by
  induction l generalizing s with
  | nil => exact h
  | cons j rest ih =>
    simp only [bonusOpponentsDraw]
    split
    · apply ih
      have h2 := drawFromNumberDeck_inv 2 s (by omega) h
      refine inv_setPlayers h2.1 ?_
      refine playersNonneg_modifyNth h2.1.1 _ j ?_
      intro q hq
      exact playerNonneg_add hq h2.2
    · exact ih s h

theorem checkConsecutiveWinsLoop_inv (d : RoundDecisions) (l : List Nat)
    (s : GameState) (h : Inv s) : Inv (checkConsecutiveWinsLoop d l s) := by
  induction l generalizing s with
  | nil => exact h
  | cons i rest ih =>
    simp only [checkConsecutiveWinsLoop]
    split
    · split
      · apply ih
        split
        · have h2 := drawFromActionDeck_inv 1 s (by omega) h
          refine inv_setPlayers ?_ ?_
          · refine inv_setPlayers h2.1 ?_
            refine playersNonneg_modifyNth h2.1.1 _ i ?_
            intro q hq
            exact ⟨hq.1, add_nonneg hq.2 h2.2⟩
          · refine playersNonneg_modifyNth ?_ _ i (fun q hq => ⟨hq.1, hq.2⟩)
            refine playersNonneg_modifyNth h2.1.1 _ i ?_
            intro q hq
            exact ⟨hq.1, add_nonneg hq.2 h2.2⟩
        · refine inv_setPlayers ?_ ?_
          · exact bonusOpponentsDraw_inv _ _ s h
          · refine playersNonneg_modifyNth ?_ _ i (fun q hq => ⟨hq.1, hq.2⟩)
            exact (bonusOpponentsDraw_inv _ _ s h).1
      · exact ih s h
    · exact ih s h

theorem handleDrawChallenge_inv (d : RoundDecisions) (w : Nat) (s : GameState)
    (h : Inv s) : Inv (handleDrawChallenge d w s) := by
  unfold handleDrawChallenge
  split
  · have h2 := drawFromNumberDeck_inv (if d.challengePlusTwo w then 2 else 4) s
      (by split <;> omega) h
    refine inv_setPlayers ?_ ?_
    · refine inv_setPlayers h2.1 ?_
      refine playersNonneg_modifyNth h2.1.1 _ w ?_
      intro q hq
      exact playerNonneg_add hq h2.2
    · refine playersNonneg_modifyNth ?_ _ (d.challengerIdx w)
        (fun q hq => ⟨hq.1, le_max_left _ _⟩)
      refine playersNonneg_modifyNth h2.1.1 _ w ?_
      intro q hq
      exact playerNonneg_add hq h2.2
  · exact ⟨h.1, h.2.1, h.2.2⟩

theorem checkWinLoop_inv (d : RoundDecisions) (l : List Nat) (s : GameState)
    (h : Inv s) : Inv (checkWinLoop d l s) := by
  induction l generalizing s with
  | nil => exact h
  | cons i rest ih =>
    simp only [checkWinLoop]
    split
    · split
      · exact handleDrawChallenge_inv d i s h
      · exact ih _ (handleDrawChallenge_inv d i s h)
    · exact ih s h

theorem checkWinCondition_inv (d : RoundDecisions) (s : GameState) (h : Inv s) :
    Inv (checkWinCondition d s) :=
  checkWinLoop_inv d _ s h

theorem collectPhase_players_nonneg (plays : Nat → Int) (i : Nat) (mx : Int)
    (ws : List Nat) (ps : List Player) (h : ∀ p ∈ ps, PlayerNonneg p) :
    ∀ p ∈ (collectPhase plays i mx ws ps).players, PlayerNonneg p := by
  induction ps generalizing i mx ws with
  | nil =>
    intro p hp
    simp [collectPhase] at hp
  | cons a as ih =>
    intro p hp
    have ha : PlayerNonneg a := h a (by simp)
    have has : ∀ q ∈ as, PlayerNonneg q := fun q hq => h q (by simp [hq])
    simp only [collectPhase] at hp
    split_ifs at hp <;> simp only [List.mem_cons] at hp <;>
      rcases hp with rfl | hp
    · exact ⟨ha.1, ha.2⟩
    · exact ih _ _ _ has p hp
    · exact ha
    · exact ih _ _ _ has p hp
    · exact ha
    · exact ih _ _ _ has p hp
    · exact ha
    · exact ih _ _ _ has p hp

theorem handleNumberRound_inv (d : RoundDecisions) (s : GameState) (h : Inv s) :
    Inv (handleNumberRound d s) := by
  simp only [handleNumberRound]
  have hcol : ∀ p ∈ (collectPhase d.plays 0 (-1) [] s.players).players, PlayerNonneg p :=
    collectPhase_players_nonneg d.plays 0 (-1) [] s.players h.1
  have h1 : Inv { s with players := (collectPhase d.plays 0 (-1) [] s.players).players } :=
    inv_setPlayers h hcol
  have h2 := specialEffectsLoop_inv d (collectPhase d.plays 0 (-1) [] s.players).playedCards
    (List.range (collectPhase d.plays 0 (-1) [] s.players).players.length) _ h1
  split
  · exact h2
  · refine checkWinCondition_inv d _ ?_
    refine checkConsecutiveWinsLoop_inv d _ _ ?_
    split
    · exact losersDrawLoop_inv _ _ _ _ (singleWinnerShed_inv _ _ h2)
    · exact allDrawLoop_inv _ _ (inv_setPlayers h2 (tieShedLoop_nonneg _ _ h2.1))

theorem handleBlockCard_inv (i t : Nat) (c : Bool) (s : GameState) (h : Inv s) :
    Inv (handleBlockCard i t c s) := by
  unfold handleBlockCard
  split
  · refine inv_setPlayers h ?_
    refine playersNonneg_modifyNth ?_ _ t (fun q hq => ⟨hq.1, le_max_left _ _⟩)
    refine playersNonneg_modifyNth ?_ _ i (fun q hq => ⟨hq.1, le_max_left _ _⟩)
    refine playersNonneg_modifyNth ?_ _ t (fun q hq => ⟨le_max_left _ _, hq.2⟩)
    exact playersNonneg_modifyNth h.1 _ i (fun q hq => ⟨le_max_left _ _, hq.2⟩)
  · refine inv_setPlayers h ?_
    refine playersNonneg_modifyNth ?_ _ i (fun q hq => ⟨hq.1, le_max_left _ _⟩)
    exact playersNonneg_modifyNth h.1 _ t (fun q hq => ⟨hq.1, hq.2⟩)

theorem swapCounts_nonneg (i j : Nat) (ps : List Player)
    (h : ∀ p ∈ ps, PlayerNonneg p) : ∀ p ∈ swapCounts i j ps, PlayerNonneg p := by
  unfold swapCounts
  split
  case h_1 a b heqa heqb =>
    have hna : PlayerNonneg a := h a (List.getElem?_mem heqa)
    have hnb : PlayerNonneg b := h b (List.getElem?_mem heqb)
    refine playersNonneg_modifyNth ?_ _ j (fun q hq => ⟨hna.1, hna.2⟩)
    exact playersNonneg_modifyNth h _ i (fun q hq => ⟨hnb.1, hnb.2⟩)
  case h_2 => exact h

theorem handleReverseCard_inv (i t : Nat) (s : GameState) (h : Inv s) :
    Inv (handleReverseCard i t s) := by
  unfold handleReverseCard
  refine inv_setPlayers h ?_
  refine swapCounts_nonneg i t _ ?_
  refine playersNonneg_modifyNth ?_ _ i (fun q hq => ⟨hq.1, le_max_left _ _⟩)
  exact swapCounts_nonneg i t _ h.1

theorem handleColorChangeCard_inv (i : Nat) (s : GameState) (h : Inv s) :
    Inv (handleColorChangeCard i s) := by
  unfold handleColorChangeCard
  refine inv_setPlayers h ?_
  refine playersNonneg_modifyNth ?_ _ i (fun q hq => ⟨hq.1, le_max_left _ _⟩)
  intro p hp
  rcases List.mem_map.1 hp with ⟨q, hq, rfl⟩
  exact ⟨le_max_left _ _, (h.1 q hq).2⟩

theorem handleDrawCard_inv (i : Nat) (amount : Int) (t : Nat) (hc ct : Bool)
    (s : GameState) (ha : 0 ≤ amount) (h : Inv s) :
    Inv (handleDrawCard i amount t hc ct s) := by
  unfold handleDrawCard
  split
  · generalize (if ct = true then (2 : Int) else 4) = opp
    have hloser : (0 : Int) ≤ 1 + |amount - opp| := by
      have := abs_nonneg (amount - opp)
      omega
    dsimp only
    split
    · have h2 := drawFromNumberDeck_inv (1 + |amount - opp|) s hloser h
      refine inv_setPlayers ?_ ?_
      · refine inv_setPlayers h2.1 ?_
        refine playersNonneg_modifyNth h2.1.1 _ t ?_
        intro q hq
        exact playerNonneg_add hq h2.2
      · refine playersNonneg_modifyNth ?_ _ t (fun q hq => ⟨hq.1, le_max_left _ _⟩)
        refine playersNonneg_modifyNth ?_ _ i (fun q hq => ⟨hq.1, le_max_left _ _⟩)
        refine playersNonneg_modifyNth h2.1.1 _ t ?_
        intro q hq
        exact playerNonneg_add hq h2.2
    · split
      · have h2 := drawFromNumberDeck_inv (1 + |amount - opp|) s hloser h
        refine inv_setPlayers ?_ ?_
        · refine inv_setPlayers h2.1 ?_
          refine playersNonneg_modifyNth h2.1.1 _ i ?_
          intro q hq
          exact playerNonneg_add hq h2.2
        · refine playersNonneg_modifyNth ?_ _ t (fun q hq => ⟨hq.1, le_max_left _ _⟩)
          refine playersNonneg_modifyNth ?_ _ i (fun q hq => ⟨hq.1, le_max_left _ _⟩)
          refine playersNonneg_modifyNth h2.1.1 _ i ?_
          intro q hq
          exact playerNonneg_add hq h2.2
      · have h2 := drawFromNumberDeck_inv 1 s (by omega) h
        have h3 := inv_setPlayers h2.1
          (playersNonneg_modifyNth h2.1.1
            (fun q => { q with numberCards := q.numberCards + (drawFromNumberDeck 1 s).1 })
            i (fun q hq => playerNonneg_add hq h2.2))
        have h4 := drawFromNumberDeck_inv 1 _ (by omega) h3
        refine inv_setPlayers ?_ ?_
        · refine inv_setPlayers h4.1 ?_
          refine playersNonneg_modifyNth h4.1.1 _ t ?_
          intro q hq
          exact playerNonneg_add hq h4.2
        · refine playersNonneg_modifyNth ?_ _ t (fun q hq => ⟨hq.1, le_max_left _ _⟩)
          refine playersNonneg_modifyNth ?_ _ i (fun q hq => ⟨hq.1, le_max_left _ _⟩)
          refine playersNonneg_modifyNth h4.1.1 _ t ?_
          intro q hq
          exact playerNonneg_add hq h4.2
  · have h2 := drawFromNumberDeck_inv amount s ha h
    refine inv_setPlayers h2.1 ?_
    refine playersNonneg_modifyNth ?_ _ i (fun q hq => ⟨hq.1, le_max_left _ _⟩)
    refine playersNonneg_modifyNth h2.1.1 _ t ?_
    intro q hq
    exact playerNonneg_add hq h2.2

theorem handleTruthCard_inv (i t : Nat) (a c : Bool) (s : GameState) (h : Inv s) :
    Inv (handleTruthCard i t a c s) := by
  unfold handleTruthCard
  split
  · refine inv_setPlayers h ?_
    refine playersNonneg_modifyNth ?_ _ i (fun q hq => ⟨le_max_left _ _, hq.2⟩)
    exact playersNonneg_modifyNth h.1 _ i (fun q hq => ⟨hq.1, le_max_left _ _⟩)
  · split
    · have h2 := drawFromActionDeck_inv 2 s (by omega) h
      have h3 := inv_setPlayers h2.1
        (playersNonneg_modifyNth h2.1.1
          (fun q => { q with actionCards := q.actionCards + (drawFromActionDeck 2 s).1 })
          i (fun q hq => ⟨hq.1, add_nonneg hq.2 h2.2⟩))
      have h4 := drawFromNumberDeck_inv 2 _ (by omega) h3
      refine inv_setPlayers ?_ ?_
      · refine inv_setPlayers h4.1 ?_
        refine playersNonneg_modifyNth h4.1.1 _ t ?_
        intro q hq
        exact playerNonneg_add hq h4.2
      · refine playersNonneg_modifyNth ?_ _ i (fun q hq => ⟨le_max_left _ _, hq.2⟩)
        refine playersNonneg_modifyNth ?_ _ i (fun q hq => ⟨hq.1, le_max_left _ _⟩)
        refine playersNonneg_modifyNth h4.1.1 _ t ?_
        intro q hq
        exact playerNonneg_add hq h4.2
    · have h2 := drawFromNumberDeck_inv 5 s (by omega) h
      refine inv_setPlayers ?_ ?_
      · refine inv_setPlayers h2.1 ?_
        refine playersNonneg_modifyNth h2.1.1 _ t ?_
        intro q hq
        exact playerNonneg_add hq h2.2
      · refine playersNonneg_modifyNth ?_ _ i (fun q hq => ⟨le_max_left _ _, hq.2⟩)
        refine playersNonneg_modifyNth ?_ _ i (fun q hq => ⟨hq.1, le_max_left _ _⟩)
        refine playersNonneg_modifyNth h2.1.1 _ t ?_
        intro q hq
        exact playerNonneg_add hq h2.2

theorem handleDareCard_inv (i t : Nat) (c : Bool) (s : GameState) (h : Inv s) :
    Inv (handleDareCard i t c s) := by
  unfold handleDareCard
  split
  · refine inv_setPlayers h ?_
    refine playersNonneg_modifyNth ?_ _ i (fun q hq => ⟨le_max_left _ _, hq.2⟩)
    exact playersNonneg_modifyNth h.1 _ i (fun q hq => ⟨hq.1, le_max_left _ _⟩)
  · exact ⟨h.1, h.2.1, h.2.2⟩

theorem manualAdjustment_inv (i : Nat) (choice : Nat) (v : Int) (s : GameState)
    (h : Inv s)
    (hv : (choice = 1 ∧ 0 ≤ v ∧ v ≤ 100) ∨ (choice = 2 ∧ 0 ≤ v ∧ v ≤ 50) ∨ choice = 3) :
    Inv (manualAdjustment i choice v s) := by
  unfold manualAdjustment
  split
  case isTrue hc =>
    have h1 : 0 ≤ v := by
      rcases hv with ⟨_, h1, _⟩ | ⟨hc2, _⟩ | hc2 <;> first | exact h1 | omega
    refine inv_setPlayers h ?_
    exact playersNonneg_modifyNth h.1 _ i (fun q hq => ⟨h1, hq.2⟩)
  case isFalse hc =>
    split
    case isTrue hc2 =>
      have h1 : 0 ≤ v := by
        rcases hv with ⟨hc3, _⟩ | ⟨_, h1, _⟩ | hc3 <;> first | exact h1 | omega
      refine inv_setPlayers h ?_
      exact playersNonneg_modifyNth h.1 _ i (fun q hq => ⟨hq.1, h1⟩)
    case isFalse hc2 =>
      refine inv_setPlayers h ?_
      exact playersNonneg_modifyNth h.1 _ i (fun q hq => ⟨hq.1, hq.2⟩)

/-- C1: every state reachable from the initial state (20 number cards and
0 action cards per player, number pool 68, action pool 32) by any sequence
of number rounds, action cards (with their bonus and win evaluations) and
validated manual adjustments, under any decision responses, has
non-negative `numberCards` and `actionCards` for every player and
non-negative `numberDeckRemaining` and `actionDeckRemaining`. -/
theorem reachable_nonneg (s : GameState) (h : Reachable s) :
    (∀ p ∈ s.players, 0 ≤ p.numberCards ∧ 0 ≤ p.actionCards) ∧
    0 ≤ s.numberDeckRemaining ∧ 0 ≤ s.actionDeckRemaining := by
  have hinv : Inv s := by
    induction h with
    | init names =>
      refine ⟨?_, by simp [initState], by simp [initState]⟩
      intro p hp
      simp only [initState, List.mem_map] at hp
      rcases hp with ⟨nm, _, rfl⟩
      exact ⟨by simp, by simp⟩
    | numberRound s d h hg hplays hsteal hpen hch ih => exact handleNumberRound_inv d s ih
    | blockCard s i t c h hg hi ht hne ih => exact handleBlockCard_inv i t c s ih
    | reverseCard s i t h hg hi ht hne ih => exact handleReverseCard_inv i t s ih
    | colorChangeCard s i h hg hi ih => exact handleColorChangeCard_inv i s ih
    | drawTwoCard s i t hc ct h hg hi ht hne ih =>
      exact handleDrawCard_inv i 2 t hc ct s (by omega) ih
    | drawFourCard s i t hc ct h hg hi ht hne ih =>
      exact handleDrawCard_inv i 4 t hc ct s (by omega) ih
    | truthCard s i t a c h hg hi ht hne ih => exact handleTruthCard_inv i t a c s ih
    | dareCard s i t c h hg hi ht hne ih => exact handleDareCard_inv i t c s ih
    | adjust s i c v h hg hi hv ih => exact manualAdjustment_inv i c v s ih hv
  exact ⟨fun p hp => (hinv.1 p hp), hinv.2.1, hinv.2.2⟩

/-- Witness for `reachable_nonneg`: the initial two-player state is
reachable and satisfies the invariant. -/
theorem reachable_nonneg_witness :
    (∀ p ∈ (initState ["A", "B"]).players, 0 ≤ p.numberCards ∧ 0 ≤ p.actionCards) ∧
    0 ≤ (initState ["A", "B"]).numberDeckRemaining ∧
    0 ≤ (initState ["A", "B"]).actionDeckRemaining :=
  reachable_nonneg (initState ["A", "B"]) (Reachable.init ["A", "B"])

end SplitUno

namespace SplitUno

/-- C7: a DrawN play (N ∈ {2,4}) countered with an unequal DrawN′: the
player who declared the smaller value draws
`drawFromNumberDeck (1 + |N − N′|)` — which is a draw of 3 — from the
number deck, both the actor's and the target's action counts decrease by
exactly one, the counter-winner's number count is unchanged, and the
action pool is untouched. -/
theorem drawCard_unequal_exchange (s : GameState) (i t : Nat) (amount : Int) (ct : Bool)
    (hi : i < s.players.length) (ht : t < s.players.length) (hit : i ≠ t)
    (hai : 1 ≤ s.players[i].actionCards) (hat : 1 ≤ s.players[t].actionCards)
    (hamt : amount = 2 ∨ amount = 4)
    (hne : amount ≠ (if ct then 2 else 4)) :
    (amount < (if ct then 2 else 4) →
      (handleDrawCard i amount t true ct s).players[i]?.map Player.numberCards
        = some (s.players[i].numberCards + (drawFromNumberDeck 3 s).1) ∧
      (handleDrawCard i amount t true ct s).players[t]?.map Player.numberCards
        = some (s.players[t].numberCards)) ∧
    ((if ct then 2 else 4) < amount →
      (handleDrawCard i amount t true ct s).players[t]?.map Player.numberCards
        = some (s.players[t].numberCards + (drawFromNumberDeck 3 s).1) ∧
      (handleDrawCard i amount t true ct s).players[i]?.map Player.numberCards
        = some (s.players[i].numberCards)) ∧
    (handleDrawCard i amount t true ct s).players[i]?.map Player.actionCards
      = some (s.players[i].actionCards - 1) ∧
    (handleDrawCard i amount t true ct s).players[t]?.map Player.actionCards
      = some (s.players[t].actionCards - 1) ∧
    (1 + |amount - (if ct then 2 else 4)| = 3) ∧
    (handleDrawCard i amount t true ct s).numberDeckRemaining
      = (drawFromNumberDeck 3 s).2.numberDeckRemaining ∧
    (handleDrawCard i amount t true ct s).actionDeckRemaining = s.actionDeckRemaining := by
  have his : s.players[i]? = some s.players[i] := List.getElem?_eq_getElem hi
  have hts : s.players[t]? = some s.players[t] := List.getElem?_eq_getElem ht
  have hfr := drawFromNumberDeck_frame 3 s
  rcases hamt with rfl | rfl <;> cases ct
  case inl.false =>
    have hred : handleDrawCard i 2 t true false s
        = setPlayers (drawFromNumberDeck 3 s).2
            (modifyNth (fun q => { q with actionCards := max 0 (q.actionCards - 1) }) t
              (modifyNth (fun q => { q with actionCards := max 0 (q.actionCards - 1) }) i
                (modifyNth
                  (fun q => { q with numberCards := q.numberCards + (drawFromNumberDeck 3 s).1 })
                  i s.players))) := by
      simp only [handleDrawCard, setPlayers]
      norm_num
      rw [hfr.1]
    refine ⟨fun _ => ⟨?_, ?_⟩, fun hcon => absurd hcon (by norm_num), ?_, ?_,
      by norm_num, by rw [hred]; rfl, by rw [hred]; exact hfr.2.1⟩
    · rw [hred]
      simp only [setPlayers]
      rw [getElem?_modifyNth _ t i, if_neg (Ne.symm hit), getElem?_modifyNth _ i i,
        if_pos rfl, getElem?_modifyNth _ i i, if_pos rfl, his]
      rfl
    · rw [hred]
      simp only [setPlayers]
      rw [getElem?_modifyNth _ t t, if_pos rfl, getElem?_modifyNth _ i t, if_neg hit,
        getElem?_modifyNth _ i t, if_neg hit, hts]
      rfl
    · rw [hred]
      simp only [setPlayers]
      rw [getElem?_modifyNth _ t i, if_neg (Ne.symm hit), getElem?_modifyNth _ i i,
        if_pos rfl, getElem?_modifyNth _ i i, if_pos rfl, his]
      simp only [Option.map_some']
      congr 1
      show max 0 (s.players[i].actionCards - 1) = s.players[i].actionCards - 1
      omega
    · rw [hred]
      simp only [setPlayers]
      rw [getElem?_modifyNth _ t t, if_pos rfl, getElem?_modifyNth _ i t, if_neg hit,
        getElem?_modifyNth _ i t, if_neg hit, hts]
      simp only [Option.map_some']
      congr 1
      show max 0 (s.players[t].actionCards - 1) = s.players[t].actionCards - 1
      omega
  case inl.true => exact absurd (by norm_num) hne
  case inr.false => exact absurd (by norm_num) hne
  case inr.true =>
    have hred : handleDrawCard i 4 t true true s
        = setPlayers (drawFromNumberDeck 3 s).2
            (modifyNth (fun q => { q with actionCards := max 0 (q.actionCards - 1) }) t
              (modifyNth (fun q => { q with actionCards := max 0 (q.actionCards - 1) }) i
                (modifyNth
                  (fun q => { q with numberCards := q.numberCards + (drawFromNumberDeck 3 s).1 })
                  t s.players))) := by
      simp only [handleDrawCard, setPlayers]
      norm_num
      rw [hfr.1]
    refine ⟨fun hcon => absurd hcon (by norm_num), fun _ => ⟨?_, ?_⟩, ?_, ?_,
      by norm_num, by rw [hred]; rfl, by rw [hred]; exact hfr.2.1⟩
    · rw [hred]
      simp only [setPlayers]
      rw [getElem?_modifyNth _ t t, if_pos rfl, getElem?_modifyNth _ i t, if_neg hit,
        getElem?_modifyNth _ t t, if_pos rfl, hts]
      rfl
    · rw [hred]
      simp only [setPlayers]
      rw [getElem?_modifyNth _ t i, if_neg (Ne.symm hit), getElem?_modifyNth _ i i,
        if_pos rfl, getElem?_modifyNth _ t i, if_neg (Ne.symm hit), his]
      rfl
    · rw [hred]
      simp only [setPlayers]
      rw [getElem?_modifyNth _ t i, if_neg (Ne.symm hit), getElem?_modifyNth _ i i,
        if_pos rfl, getElem?_modifyNth _ t i, if_neg (Ne.symm hit), his]
      simp only [Option.map_some']
      congr 1
      show max 0 (s.players[i].actionCards - 1) = s.players[i].actionCards - 1
      omega
    · rw [hred]
      simp only [setPlayers]
      rw [getElem?_modifyNth _ t t, if_pos rfl, getElem?_modifyNth _ i t, if_neg hit,
        getElem?_modifyNth _ t t, if_pos rfl, hts]
      simp only [Option.map_some']
      congr 1
      show max 0 (s.players[t].actionCards - 1) = s.players[t].actionCards - 1
      omega

/-- Witness for `drawCard_unequal_exchange`: players A (10 number, 2
action) and B (8, 1) with pool 68/32; A plays DrawTwo, B counters with
DrawFour; A (the smaller declarer) ends at 13 number cards. -/
theorem drawCard_unequal_exchange_witness :
    (2 : Int) < 4 ∧
    (handleDrawCard 0 2 1 true false
        ⟨[⟨"A", 10, 2, 0, false⟩, ⟨"B", 8, 1, 0, false⟩], 68, 32, false, ""⟩).players[0]?.map
      Player.numberCards = some 13 := by
  have h := drawCard_unequal_exchange
    ⟨[⟨"A", 10, 2, 0, false⟩, ⟨"B", 8, 1, 0, false⟩], 68, 32, false, ""⟩ 0 1 2 false
    (by decide) (by decide) (by decide) (by decide) (by decide)
    (Or.inl rfl) (by decide)
  refine ⟨by decide, ?_⟩
  have h2 := (h.1 (by decide)).1
  exact h2.trans (by decide)

end SplitUno

namespace SplitUno

theorem playersAll_modifyNth {P : Player → Prop} {ps : List Player}
    (h : ∀ p ∈ ps, P p) (f : Player → Player) (i : Nat)
    (hf : ∀ q, P q → P (f q)) : ∀ p ∈ modifyNth f i ps, P p := by
  intro p hp
  rcases of_mem_modifyNth hp with h1 | ⟨q, hq, he⟩
  · exact h p h1
  · rw [he]
    exact hf q (h q hq)

theorem collectPhase_unblocked (plays : Nat → Int) (k : Nat) (mx : Int)
    (ws : List Nat) (ps : List Player) :
    AllUnblocked (collectPhase plays k mx ws ps).players := by
  induction ps generalizing k mx ws with
  | nil =>
    intro p hp
    simp [collectPhase] at hp
  | cons a as ih =>
    intro p hp
    simp only [collectPhase] at hp
    split_ifs at hp with h1 h2 h3 <;> simp only [List.mem_cons] at hp <;>
      rcases hp with rfl | hp
    · rfl
    · exact ih _ _ _ p hp
    · simpa using h1
    · exact ih _ _ _ p hp
    · simpa using h1
    · exact ih _ _ _ p hp
    · simpa using h1
    · exact ih _ _ _ p hp

theorem card0Steal_unblocked (i t : Nat) (s : GameState)
    (h : AllUnblocked s.players) : AllUnblocked (card0Steal i t s).players := by
  unfold card0Steal
  split
  · split
    · refine playersAll_modifyNth ?_ _ t (by exact fun q hq => hq)
      exact playersAll_modifyNth h _ i (by exact fun q hq => hq)
    · exact h
  · exact h

theorem card7Penalty_unblocked (t : Nat) (s : GameState)
    (h : AllUnblocked s.players) : AllUnblocked (card7Penalty t s).players := by
  unfold card7Penalty
  have hfr1 := drawFromNumberDeck_frame 2 s
  have hfr2 := drawFromActionDeck_frame 1 (drawFromNumberDeck 2 s).2
  refine playersAll_modifyNth ?_ _ t (by exact fun q hq => hq)
  rw [hfr2.1, hfr1.1]
  exact h

theorem specialEffectsLoop_unblocked (d : RoundDecisions) (cards : List Int)
    (l : List Nat) (s : GameState) (h : AllUnblocked s.players) :
    AllUnblocked (specialEffectsLoop d cards l s).players := by
  induction l generalizing s with
  | nil => exact h
  | cons i rest ih =>
    simp only [specialEffectsLoop]
    apply ih
    have h1 : AllUnblocked (if cards.getD i (-1) = 0 then
        card0Steal i (d.stealTarget i) s else s).players := by
      split
      · exact card0Steal_unblocked _ _ _ h
      · exact h
    split
    · exact card7Penalty_unblocked _ _ h1
    · exact h1

theorem losersDrawLoop_unblocked (w : Nat) (cards : List Int) (l : List Nat)
    (s : GameState) (h : AllUnblocked s.players) :
    AllUnblocked (losersDrawLoop w cards l s).players := by
  induction l generalizing s with
  | nil => exact h
  | cons i rest ih =>
    simp only [losersDrawLoop]
    split
    · apply ih
      refine playersAll_modifyNth ?_ _ i (by exact fun q hq => hq)
      rw [(drawFromNumberDeck_frame 1 _).1]
      exact playersAll_modifyNth h _ i (by exact fun q hq => hq)
    · exact ih s h

theorem allDrawLoop_unblocked (l : List Nat) (s : GameState)
    (h : AllUnblocked s.players) : AllUnblocked (allDrawLoop l s).players := by
  induction l generalizing s with
  | nil => exact h
  | cons i rest ih =>
    simp only [allDrawLoop]
    apply ih
    refine playersAll_modifyNth ?_ _ i (by exact fun q hq => hq)
    rw [(drawFromNumberDeck_frame 1 _).1]
    exact h

theorem tieShedLoop_unblocked (l : List Nat) (ps : List Player)
    (h : AllUnblocked ps) : AllUnblocked (tieShedLoop l ps) := by
  induction l generalizing ps with
  | nil => exact h
  | cons w rest ih =>
    simp only [tieShedLoop]
    apply ih
    exact playersAll_modifyNth h _ w (by exact fun q hq => hq)

theorem bonusOpponentsDraw_unblocked (nm : String) (l : List Nat) (s : GameState)
    (h : AllUnblocked s.players) : AllUnblocked (bonusOpponentsDraw nm l s).players := by
  induction l generalizing s with
  | nil => exact h
  | cons j rest ih =>
    simp only [bonusOpponentsDraw]
    split
    · apply ih
      refine playersAll_modifyNth ?_ _ j (by exact fun q hq => hq)
      rw [(drawFromNumberDeck_frame 2 _).1]
      exact h
    · exact ih s h

theorem checkConsecutiveWinsLoop_unblocked (d : RoundDecisions) (l : List Nat)
    (s : GameState) (h : AllUnblocked s.players) :
    AllUnblocked (checkConsecutiveWinsLoop d l s).players := by
  induction l generalizing s with
  | nil => exact h
  | cons i rest ih =>
    simp only [checkConsecutiveWinsLoop]
    split
    · split
      · apply ih
        refine playersAll_modifyNth ?_ _ i (by exact fun q hq => hq)
        split
        · refine playersAll_modifyNth ?_ _ i (by exact fun q hq => hq)
          rw [(drawFromActionDeck_frame 1 _).1]
          exact h
        · exact bonusOpponentsDraw_unblocked _ _ s h
      · exact ih s h
    · exact ih s h

theorem handleDrawChallenge_unblocked (d : RoundDecisions) (w : Nat) (s : GameState)
    (h : AllUnblocked s.players) : AllUnblocked (handleDrawChallenge d w s).players := by
  unfold handleDrawChallenge
  split
  · refine playersAll_modifyNth ?_ _ (d.challengerIdx w) (by exact fun q hq => hq)
    refine playersAll_modifyNth ?_ _ w (by exact fun q hq => hq)
    rw [(drawFromNumberDeck_frame _ _).1]
    exact h
  · exact h

theorem checkWinLoop_unblocked (d : RoundDecisions) (l : List Nat) (s : GameState)
    (h : AllUnblocked s.players) : AllUnblocked (checkWinLoop d l s).players := by
  induction l generalizing s with
  | nil => exact h
  | cons i rest ih =>
    simp only [checkWinLoop]
    split
    · split
      · exact handleDrawChallenge_unblocked d i s h
      · exact ih _ (handleDrawChallenge_unblocked d i s h)
    · exact ih s h

theorem singleWinnerShed_unblocked (w : Nat) (s : GameState)
    (h : AllUnblocked s.players) : AllUnblocked (singleWinnerShed w s).players := by
  unfold singleWinnerShed
  exact playersAll_modifyNth h _ w (by exact fun q hq => hq)

theorem handleNumberRound_unblocked (d : RoundDecisions) (s : GameState) :
    AllUnblocked (handleNumberRound d s).players := by
  simp only [handleNumberRound]
  have hcol : AllUnblocked (collectPhase d.plays 0 (-1) [] s.players).players :=
    collectPhase_unblocked d.plays 0 (-1) [] s.players
  have h2 := specialEffectsLoop_unblocked d
    (collectPhase d.plays 0 (-1) [] s.players).playedCards
    (List.range (collectPhase d.plays 0 (-1) [] s.players).players.length)
    (setPlayers s (collectPhase d.plays 0 (-1) [] s.players).players) hcol
  split
  · exact h2
  · refine checkWinLoop_unblocked d _ _ ?_
    refine checkConsecutiveWinsLoop_unblocked d _ _ ?_
    split
    · exact losersDrawLoop_unblocked _ _ _ _ (singleWinnerShed_unblocked _ _ h2)
    · exact allDrawLoop_unblocked _ _ (tieShedLoop_unblocked _ _ h2)

end SplitUno

namespace SplitUno

theorem collectPhase_playedCards_blocked (plays : Nat → Int) (ps : List Player) :
    ∀ (k : Nat) (mx : Int) (ws : List Nat) (j : Nat) (p : Player),
      ps[j]? = some p → p.isBlocked = true →
      (collectPhase plays k mx ws ps).playedCards[j]? = some (-1) := by
  induction ps with
  | nil =>
    intro k mx ws j p hj
    simp at hj
  | cons a as ih =>
    intro k mx ws j p hj hb
    cases j with
    | zero =>
      simp only [List.getElem?_cons_zero] at hj
      have ha : a.isBlocked = true := by
        rw [Option.some.inj hj]
        exact hb
      simp only [collectPhase]
      rw [if_pos ha]
      simp
    | succ n =>
      simp only [List.getElem?_cons_succ] at hj
      simp only [collectPhase]
      split_ifs <;> simpa using ih (k + 1) _ _ n p hj hb

theorem mem_nonBlockedIndices (ps : List Player) :
    ∀ (k x : Nat), x ∈ nonBlockedIndices k ps →
      k ≤ x ∧ ∃ p, ps[x - k]? = some p ∧ p.isBlocked = false := by
  induction ps with
  | nil =>
    intro k x hx
    simp [nonBlockedIndices] at hx
  | cons a as ih =>
    intro k x hx
    simp only [nonBlockedIndices] at hx
    split_ifs at hx with hb
    · obtain ⟨hk, p, hp, hbl⟩ := ih (k + 1) x hx
      refine ⟨by omega, p, ?_, hbl⟩
      have he : x - k = (x - (k + 1)) + 1 := by omega
      rw [he]
      simpa using hp
    · rcases List.mem_cons.1 hx with rfl | hx2
      · exact ⟨le_refl _, a, by simp, by simpa using hb⟩
      · obtain ⟨hk, p, hp, hbl⟩ := ih (k + 1) x hx2
        refine ⟨by omega, p, ?_, hbl⟩
        have he : x - k = (x - (k + 1)) + 1 := by omega
        rw [he]
        simpa using hp

theorem collectPhase_winners_mem (plays : Nat → Int) (ps : List Player) :
    ∀ (k : Nat) (mx : Int) (ws : List Nat) (x : Nat),
      x ∈ (collectPhase plays k mx ws ps).winners →
      x ∈ ws ∨ x ∈ nonBlockedIndices k ps := by
  induction ps with
  | nil =>
    intro k mx ws x hx
    simp only [collectPhase] at hx
    exact Or.inl hx
  | cons a as ih =>
    intro k mx ws x hx
    simp only [collectPhase] at hx
    split_ifs at hx with hb hgt heq
    · rcases ih (k + 1) mx ws x hx with h1 | h1
      · exact Or.inl h1
      · right
        simp only [nonBlockedIndices]
        rw [if_pos hb]
        exact h1
    · right
      simp only [nonBlockedIndices]
      rw [if_neg hb]
      rcases ih (k + 1) (plays k) [k] x hx with h1 | h1
      · simp only [List.mem_singleton] at h1
        simp [h1]
      · exact List.mem_cons_of_mem _ h1
    · rcases ih (k + 1) mx (ws ++ [k]) x hx with h1 | h1
      · rcases List.mem_append.1 h1 with h2 | h2
        · exact Or.inl h2
        · right
          simp only [nonBlockedIndices]
          rw [if_neg hb]
          simp only [List.mem_singleton] at h2
          simp [h2]
      · right
        simp only [nonBlockedIndices]
        rw [if_neg hb]
        exact List.mem_cons_of_mem _ h1
    · rcases ih (k + 1) mx ws x hx with h1 | h1
      · exact Or.inl h1
      · right
        simp only [nonBlockedIndices]
        rw [if_neg hb]
        exact List.mem_cons_of_mem _ h1

theorem collectPhase_blocked_not_winner (plays : Nat → Int) (ps : List Player)
    (i : Nat) (p : Player) (hj : ps[i]? = some p) (hb : p.isBlocked = true) :
    i ∉ (collectPhase plays 0 (-1) [] ps).winners := by
  intro hx
  rcases collectPhase_winners_mem plays ps 0 (-1) [] i hx with h1 | h1
  · simp at h1
  · obtain ⟨_, q, hq, hqb⟩ := mem_nonBlockedIndices ps 0 i h1
    rw [Nat.sub_zero, hj] at hq
    rw [← Option.some.inj hq, hb] at hqb
    exact absurd hqb (by simp)

theorem isBlocked_modifyNth_pres (f : Player → Player)
    (hf : ∀ q, q.isBlocked = true → (f q).isBlocked = true) (a j : Nat)
    (ps : List Player) (h : ps[j]?.map Player.isBlocked = some true) :
    (modifyNth f a ps)[j]?.map Player.isBlocked = some true := by
  rw [getElem?_modifyNth]
  split
  · cases hps : ps[j]? with
    | none =>
      rw [hps] at h
      simp at h
    | some q =>
      rw [hps] at h
      simp only [Option.map_some'] at h
      simp only [hps, Option.map_some']
      exact congrArg some (hf q (Option.some.inj h))
  · exact h

end SplitUno

namespace SplitUno

theorem swapCounts_blocked_pres (i t j : Nat) (ps : List Player)
    (h : ps[j]?.map Player.isBlocked = some true) :
    (swapCounts i t ps)[j]?.map Player.isBlocked = some true := by
  unfold swapCounts
  split
  · refine isBlocked_modifyNth_pres _ (by exact fun q hq => hq) _ _ _ ?_
    exact isBlocked_modifyNth_pres _ (by exact fun q hq => hq) _ _ _ h
  · exact h

theorem handleBlockCard_blocked (i t : Nat) (c : Bool) (s : GameState) (j : Nat)
    (h : s.players[j]?.map Player.isBlocked = some true) :
    (handleBlockCard i t c s).players[j]?.map Player.isBlocked = some true := by
  unfold handleBlockCard
  split
  · refine isBlocked_modifyNth_pres _ (by exact fun q hq => hq) _ _ _ ?_
    refine isBlocked_modifyNth_pres _ (by exact fun q hq => hq) _ _ _ ?_
    refine isBlocked_modifyNth_pres _ (by exact fun q hq => hq) _ _ _ ?_
    exact isBlocked_modifyNth_pres _ (by exact fun q hq => hq) _ _ _ h
  · refine isBlocked_modifyNth_pres _ (by exact fun q hq => hq) _ _ _ ?_
    exact isBlocked_modifyNth_pres _ (by exact fun q hq => rfl) _ _ _ h

theorem handleReverseCard_blocked (i t : Nat) (s : GameState) (j : Nat)
    (h : s.players[j]?.map Player.isBlocked = some true) :
    (handleReverseCard i t s).players[j]?.map Player.isBlocked = some true := by
  unfold handleReverseCard
  refine swapCounts_blocked_pres _ _ _ _ ?_
  refine isBlocked_modifyNth_pres _ (by exact fun q hq => hq) _ _ _ ?_
  exact swapCounts_blocked_pres _ _ _ _ h

theorem handleColorChangeCard_blocked (i : Nat) (s : GameState) (j : Nat)
    (h : s.players[j]?.map Player.isBlocked = some true) :
    (handleColorChangeCard i s).players[j]?.map Player.isBlocked = some true := by
  unfold handleColorChangeCard
  refine isBlocked_modifyNth_pres _ (by exact fun q hq => hq) _ _ _ ?_
  cases hps : s.players[j]? with
  | none =>
    rw [hps] at h
    simp at h
  | some q =>
    rw [hps] at h
    simp only [Option.map_some'] at h
    simp only [List.getElem?_map, hps, Option.map_some']
    exact congrArg some (Option.some.inj h)

theorem handleDrawCard_blocked (i : Nat) (amount : Int) (t : Nat) (hc ct : Bool)
    (s : GameState) (j : Nat)
    (h : s.players[j]?.map Player.isBlocked = some true) :
    (handleDrawCard i amount t hc ct s).players[j]?.map Player.isBlocked = some true := by
  unfold handleDrawCard
  split
  · dsimp only
    refine isBlocked_modifyNth_pres _ (by exact fun q hq => hq) _ _ _ ?_
    refine isBlocked_modifyNth_pres _ (by exact fun q hq => hq) _ _ _ ?_
    generalize (if ct = true then (2 : Int) else 4) = opp
    split
    · refine isBlocked_modifyNth_pres _ (by exact fun q hq => hq) _ _ _ ?_
      rw [(drawFromNumberDeck_frame _ _).1]
      exact h
    · split
      · refine isBlocked_modifyNth_pres _ (by exact fun q hq => hq) _ _ _ ?_
        rw [(drawFromNumberDeck_frame _ _).1]
        exact h
      · refine isBlocked_modifyNth_pres _ (by exact fun q hq => hq) _ _ _ ?_
        rw [(drawFromNumberDeck_frame _ _).1]
        refine isBlocked_modifyNth_pres _ (by exact fun q hq => hq) _ _ _ ?_
        rw [(drawFromNumberDeck_frame _ _).1]
        exact h
  · refine isBlocked_modifyNth_pres _ (by exact fun q hq => hq) _ _ _ ?_
    refine isBlocked_modifyNth_pres _ (by exact fun q hq => hq) _ _ _ ?_
    rw [(drawFromNumberDeck_frame _ _).1]
    exact h

theorem handleTruthCard_blocked (i t : Nat) (a c : Bool) (s : GameState) (j : Nat)
    (h : s.players[j]?.map Player.isBlocked = some true) :
    (handleTruthCard i t a c s).players[j]?.map Player.isBlocked = some true := by
  unfold handleTruthCard
  dsimp only
  refine isBlocked_modifyNth_pres _ (by exact fun q hq => hq) _ _ _ ?_
  refine isBlocked_modifyNth_pres _ (by exact fun q hq => hq) _ _ _ ?_
  split
  · exact h
  · split
    · refine isBlocked_modifyNth_pres _ (by exact fun q hq => hq) _ _ _ ?_
      rw [(drawFromNumberDeck_frame _ _).1]
      refine isBlocked_modifyNth_pres _ (by exact fun q hq => hq) _ _ _ ?_
      rw [(drawFromActionDeck_frame _ _).1]
      exact h
    · refine isBlocked_modifyNth_pres _ (by exact fun q hq => hq) _ _ _ ?_
      rw [(drawFromNumberDeck_frame _ _).1]
      exact h

theorem handleDareCard_blocked (i t : Nat) (c : Bool) (s : GameState) (j : Nat)
    (h : s.players[j]?.map Player.isBlocked = some true) :
    (handleDareCard i t c s).players[j]?.map Player.isBlocked = some true := by
  unfold handleDareCard
  split
  · refine isBlocked_modifyNth_pres _ (by exact fun q hq => hq) _ _ _ ?_
    exact isBlocked_modifyNth_pres _ (by exact fun q hq => hq) _ _ _ h
  · exact h

theorem manualAdjustment_blocked (i : Nat) (choice : Nat) (v : Int) (s : GameState)
    (j : Nat) (h : s.players[j]?.map Player.isBlocked = some true) :
    (manualAdjustment i choice v s).players[j]?.map Player.isBlocked = some true := by
  unfold manualAdjustment
  split
  · exact isBlocked_modifyNth_pres _ (by exact fun q hq => hq) _ _ _ h
  · split
    · exact isBlocked_modifyNth_pres _ (by exact fun q hq => hq) _ _ _ h
    · exact isBlocked_modifyNth_pres _ (by exact fun q hq => hq) _ _ _ h

/-- C8: a blocked player is skipped by the number round (their recorded
play is the `-1` marker and they are never in the winner set), the round
clears every blocked flag regardless of its outcome (after any number
round no player is blocked), and no other operation — any of the seven
action handlers or a manual adjustment — ever clears a blocked flag, so a
block lasts exactly until the next number round. -/
theorem blocked_lifecycle :
    (∀ d s, ∀ p ∈ (handleNumberRound d s).players, p.isBlocked = false) ∧
    (∀ (plays : Nat → Int) (ps : List Player) (i : Nat) (p : Player),
      ps[i]? = some p → p.isBlocked = true →
      (collectPhase plays 0 (-1) [] ps).playedCards[i]? = some (-1) ∧
      i ∉ (collectPhase plays 0 (-1) [] ps).winners) ∧
    (∀ (i t : Nat) (c : Bool) (s : GameState) (j : Nat),
      s.players[j]?.map Player.isBlocked = some true →
      (handleBlockCard i t c s).players[j]?.map Player.isBlocked = some true) ∧
    (∀ (i t : Nat) (s : GameState) (j : Nat),
      s.players[j]?.map Player.isBlocked = some true →
      (handleReverseCard i t s).players[j]?.map Player.isBlocked = some true) ∧
    (∀ (i : Nat) (s : GameState) (j : Nat),
      s.players[j]?.map Player.isBlocked = some true →
      (handleColorChangeCard i s).players[j]?.map Player.isBlocked = some true) ∧
    (∀ (i : Nat) (amount : Int) (t : Nat) (hc ct : Bool) (s : GameState) (j : Nat),
      s.players[j]?.map Player.isBlocked = some true →
      (handleDrawCard i amount t hc ct s).players[j]?.map Player.isBlocked = some true) ∧
    (∀ (i t : Nat) (a c : Bool) (s : GameState) (j : Nat),
      s.players[j]?.map Player.isBlocked = some true →
      (handleTruthCard i t a c s).players[j]?.map Player.isBlocked = some true) ∧
    (∀ (i t : Nat) (c : Bool) (s : GameState) (j : Nat),
      s.players[j]?.map Player.isBlocked = some true →
      (handleDareCard i t c s).players[j]?.map Player.isBlocked = some true) ∧
    (∀ (i choice : Nat) (v : Int) (s : GameState) (j : Nat),
      s.players[j]?.map Player.isBlocked = some true →
      (manualAdjustment i choice v s).players[j]?.map Player.isBlocked = some true) := by
  refine ⟨fun d s => handleNumberRound_unblocked d s,
    fun plays ps i p hj hb =>
      ⟨collectPhase_playedCards_blocked plays ps 0 (-1) [] i p hj hb,
       collectPhase_blocked_not_winner plays ps i p hj hb⟩,
    fun i t c s j h => handleBlockCard_blocked i t c s j h,
    fun i t s j h => handleReverseCard_blocked i t s j h,
    fun i s j h => handleColorChangeCard_blocked i s j h,
    fun i amount t hc ct s j h => handleDrawCard_blocked i amount t hc ct s j h,
    fun i t a c s j h => handleTruthCard_blocked i t a c s j h,
    fun i t c s j h => handleDareCard_blocked i t c s j h,
    fun i choice v s j h => manualAdjustment_blocked i choice v s j h⟩

/-- Witness for `blocked_lifecycle`: with player B blocked, a
Color-Change by player A leaves B blocked. -/
theorem blocked_lifecycle_witness :
    (handleColorChangeCard 0
        ⟨[⟨"A", 5, 0, 0, false⟩, ⟨"B", 5, 0, 0, true⟩], 68, 32, false, ""⟩).players[1]?.map
      Player.isBlocked = some true :=
  blocked_lifecycle.2.2.2.2.1 0
    ⟨[⟨"A", 5, 0, 0, false⟩, ⟨"B", 5, 0, 0, true⟩], 68, 32, false, ""⟩ 1 (by decide)

end SplitUno

namespace SplitUno

theorem allDrawLoop_cons_pos (i : Nat) (rest : List Nat) (s : GameState)
    (h : 0 < s.numberDeckRemaining) :
    allDrawLoop (i :: rest) s =
      allDrawLoop rest
        ⟨modifyNth (fun q => { q with numberCards := q.numberCards + 1 }) i s.players,
         s.numberDeckRemaining - 1, s.actionDeckRemaining, s.gameOver, s.winner⟩ := by
  have hd : drawFromNumberDeck 1 s =
      (1, { s with numberDeckRemaining := s.numberDeckRemaining - 1 }) := by
    unfold drawFromNumberDeck
    rw [if_neg (by omega), min_eq_left (by omega)]
  simp only [allDrawLoop]
  rw [hd]

theorem checkConsecutiveWinsLoop_cons_skip (d : RoundDecisions) (i : Nat)
    (rest : List Nat) (s : GameState) (p : Player) (hp : s.players[i]? = some p)
    (hlt : p.consecutiveWins < 2) :
    checkConsecutiveWinsLoop d (i :: rest) s = checkConsecutiveWinsLoop d rest s := by
  rw [checkConsecutiveWinsLoop, hp]
  exact if_neg (by omega)

theorem checkWinLoop_cons_skip (d : RoundDecisions) (i : Nat) (rest : List Nat)
    (s : GameState) (x : Int)
    (hx : (s.players[i]?.map Player.numberCards).getD 1 = x) (hne : x ≠ 0) :
    checkWinLoop d (i :: rest) s = checkWinLoop d rest s := by
  rw [checkWinLoop, hx]
  exact if_neg hne

theorem checkWinTrace_fst (d : RoundDecisions) (l : List Nat) (s : GameState) :
    (checkWinTrace d l s).1 = checkWinLoop d l s := by
  induction l generalizing s with
  | nil => rfl
  | cons i rest ih =>
    simp only [checkWinTrace, checkWinLoop]
    split
    · split
      · rfl
      · exact ih _
    · exact ih _

end SplitUno

namespace SplitUno

/-- C4 counterexample: in a number round where players "A" and "B" tie at
9 while player "C" is blocked with 20 number cards, the blocked player's
count goes from 20 to 21 — the tie-branch draw loop `for (auto& p :
players)` includes the blocked player, so a blocked player's `numberCount`
is not unchanged by the round. -/
theorem tie_blocked_player_draws_cex :
    (tieState 20 20 20 0 0 0 0 0 0 68 32 "").players[2]?.map Player.numberCards =
      some 20 ∧
    (handleNumberRound tieDecisions
        (tieState 20 20 20 0 0 0 0 0 0 68 32 "")).players[2]?.map Player.numberCards =
      some 21 := by
  constructor
  · rfl
  · rfl

end SplitUno

namespace SplitUno

/-- C4 (amended): for every number round on `tieState` that ends with
players 0 and 1 tied at the highest declared value (both play 9, player 2
blocked), each tied player sheds 1 number card (floor-clamped) and has
`consecutiveWins` reset to 0, and then **every** player — the tied
players and also the blocked player — draws `drawNumber(1)`: with at
least 3 cards in the number deck the blocked player's count increases by
exactly 1, and the deck shrinks by 3. -/
theorem tie_round_blocked_draws (a b c aA aB aC wA wB wC nd ad : Int) (w : String)
    (hnd : 3 ≤ nd) (hw : wC < 2) (hc : 0 ≤ c) :
    handleNumberRound tieDecisions (tieState a b c aA aB aC wA wB wC nd ad w) =
      tieFinal a b c aA aB aC wC (nd - 3) ad w := by
  have h1 : handleNumberRound tieDecisions (tieState a b c aA aB aC wA wB wC nd ad w) =
      checkWinCondition tieDecisions
        (checkConsecutiveWinsLoop tieDecisions
          (List.range (allDrawLoop [0, 1, 2] (tieMid a b c aA aB aC wC nd ad w)).players.length)
          (allDrawLoop [0, 1, 2] (tieMid a b c aA aB aC wC nd ad w))) := rfl
  have hA : allDrawLoop [0, 1, 2] (tieMid a b c aA aB aC wC nd ad w) =
      tieFinal a b c aA aB aC wC (nd - 3) ad w := by
    rw [allDrawLoop_cons_pos 0 [1, 2] (tieMid a b c aA aB aC wC nd ad w)
          (by show (0 : Int) < nd; omega)]
    rw [allDrawLoop_cons_pos 1 [2] _ (by show (0 : Int) < nd - 1; omega)]
    rw [allDrawLoop_cons_pos 2 [] _ (by show (0 : Int) < nd - 1 - 1; omega)]
    show (⟨_, nd - 1 - 1 - 1, ad, false, w⟩ : GameState) = tieFinal a b c aA aB aC wC (nd - 3) ad w
    rw [show nd - 1 - 1 - 1 = nd - 3 by ring]
    exact rfl
  have hB : checkConsecutiveWinsLoop tieDecisions [0, 1, 2]
      (tieFinal a b c aA aB aC wC (nd - 3) ad w) = tieFinal a b c aA aB aC wC (nd - 3) ad w := by
    rw [checkConsecutiveWinsLoop_cons_skip tieDecisions 0 [1, 2]
          (tieFinal a b c aA aB aC wC (nd - 3) ad w) ⟨"A", max 0 (a - 1) + 1, aA, 0, false⟩ rfl
          (by norm_num)]
    rw [checkConsecutiveWinsLoop_cons_skip tieDecisions 1 [2]
          (tieFinal a b c aA aB aC wC (nd - 3) ad w) ⟨"B", max 0 (b - 1) + 1, aB, 0, false⟩ rfl
          (by norm_num)]
    rw [checkConsecutiveWinsLoop_cons_skip tieDecisions 2 []
          (tieFinal a b c aA aB aC wC (nd - 3) ad w) ⟨"C", c + 1, aC, wC, false⟩ rfl
          (by exact hw)]
    rfl
  have hC : checkWinCondition tieDecisions (tieFinal a b c aA aB aC wC (nd - 3) ad w) =
      tieFinal a b c aA aB aC wC (nd - 3) ad w := by
    show checkWinLoop tieDecisions [0, 1, 2] (tieFinal a b c aA aB aC wC (nd - 3) ad w) =
      tieFinal a b c aA aB aC wC (nd - 3) ad w
    rw [checkWinLoop_cons_skip tieDecisions 0 [1, 2]
          (tieFinal a b c aA aB aC wC (nd - 3) ad w) (max 0 (a - 1) + 1) rfl
          (by have h := le_max_left (0 : Int) (a - 1); omega)]
    rw [checkWinLoop_cons_skip tieDecisions 1 [2]
          (tieFinal a b c aA aB aC wC (nd - 3) ad w) (max 0 (b - 1) + 1) rfl
          (by have h := le_max_left (0 : Int) (b - 1); omega)]
    rw [checkWinLoop_cons_skip tieDecisions 2 []
          (tieFinal a b c aA aB aC wC (nd - 3) ad w) (c + 1) rfl (by omega)]
    rfl
  rw [h1, hA]
  rw [show List.range (tieFinal a b c aA aB aC wC (nd - 3) ad w).players.length = [0, 1, 2]
        from rfl]
  rw [hB]
  exact hC

/-- Witness for `tie_round_blocked_draws` at the all-20 initial counts
with full decks. -/
theorem tie_round_blocked_draws_witness :
    handleNumberRound tieDecisions (tieState 20 20 20 0 0 0 0 0 0 68 32 "") =
      tieFinal 20 20 20 0 0 0 0 (68 - 3) 32 "" :=
  tie_round_blocked_draws 20 20 20 0 0 0 0 0 0 68 32 "" (by norm_num) (by norm_num)
    (by norm_num)

end SplitUno

namespace SplitUno

theorem checkWinTrace_cons_zero (d : RoundDecisions) (i : Nat) (rest : List Nat)
    (s s1 : GameState) (hz : (s.players[i]?.map Player.numberCards).getD 1 = 0)
    (h1 : handleDrawChallenge d i s = s1) (hgo : ¬(s1.gameOver = true)) :
    checkWinTrace d (i :: rest) s =
      ((checkWinTrace d rest s1).1, i :: (checkWinTrace d rest s1).2) := by
  rw [checkWinTrace, if_pos hz, h1]
  dsimp only
  rw [if_neg hgo]

theorem checkWinLoop_cons_zero (d : RoundDecisions) (i : Nat) (rest : List Nat)
    (s s1 : GameState) (hz : (s.players[i]?.map Player.numberCards).getD 1 = 0)
    (h1 : handleDrawChallenge d i s = s1) (hgo : ¬(s1.gameOver = true)) :
    checkWinLoop d (i :: rest) s = checkWinLoop d rest s1 := by
  rw [checkWinLoop, if_pos hz, h1]
  dsimp only
  rw [if_neg hgo]

/-- C5 counterexample: player "A" is at 0 with the number deck exhausted
and is challenged with a "+2" by player "B".  The challenge draw yields
nothing, so "A" is still at 0 after the challenge — yet the evaluator
does not re-enter the challenge phase: the challenge trace is exactly
`[0]` (one entry), no win is declared, and the evaluation simply moves
on. -/
theorem win_challenge_no_reentry_cex :
    ((checkWinCondition cwChallenge (cwState "A" 0 0 "B" 5 1 0 0 32 "")).players[0]?.map
        Player.numberCards = some 0) ∧
    (checkWinCondition cwChallenge (cwState "A" 0 0 "B" 5 1 0 0 32 "")).gameOver = false ∧
    (checkWinTrace cwChallenge (List.range 2) (cwState "A" 0 0 "B" 5 1 0 0 32 "")).2 =
      [0] := by
  refine ⟨rfl, rfl, rfl⟩

end SplitUno

namespace SplitUno

/-- C5 (amended): for a player at `numberCount` exactly 0 (player 0 of
`cwState`, with player 1 at a nonzero count): with no challenge the game
ends with that player as winner; with a "+2" challenge by player 1 the
zero-count player draws `drawNumber(2)` (2 cards when the deck holds at
least 2, 0 cards when it is exhausted), the challenger's action count
drops by 1 (floor-clamped), no win is declared in that evaluation, and
the evaluator enters the challenge phase exactly once for that player —
it does **not** re-enter it, even when the count is still 0 after the
challenge draw (deck-exhausted case). -/
theorem win_challenge_single_entry (n0 n1 w : String) (a0 w0 b a1 w1 nd ad : Int)
    (hb : b ≠ 0) :
    (checkWinCondition cwNoChallenge (cwState n0 a0 w0 n1 b a1 w1 nd ad w) =
      { cwState n0 a0 w0 n1 b a1 w1 nd ad w with gameOver := true, winner := n0 }) ∧
    (2 ≤ nd →
      checkWinCondition cwChallenge (cwState n0 a0 w0 n1 b a1 w1 nd ad w) =
        ⟨[⟨n0, 2, a0, w0, false⟩, ⟨n1, b, max 0 (a1 - 1), w1, false⟩],
         nd - 2, ad, false, w⟩ ∧
      checkWinTrace cwChallenge (List.range 2) (cwState n0 a0 w0 n1 b a1 w1 nd ad w) =
        (⟨[⟨n0, 2, a0, w0, false⟩, ⟨n1, b, max 0 (a1 - 1), w1, false⟩],
          nd - 2, ad, false, w⟩, [0])) ∧
    (nd ≤ 0 →
      checkWinCondition cwChallenge (cwState n0 a0 w0 n1 b a1 w1 nd ad w) =
        ⟨[⟨n0, 0, a0, w0, false⟩, ⟨n1, b, max 0 (a1 - 1), w1, false⟩],
         nd, ad, false, w⟩ ∧
      checkWinTrace cwChallenge (List.range 2) (cwState n0 a0 w0 n1 b a1 w1 nd ad w) =
        (⟨[⟨n0, 0, a0, w0, false⟩, ⟨n1, b, max 0 (a1 - 1), w1, false⟩],
          nd, ad, false, w⟩, [0])) := by
  refine ⟨by exact rfl, fun hnd => ?_, fun hnd0 => ?_⟩
  · have hd : drawFromNumberDeck 2 (cwState n0 a0 w0 n1 b a1 w1 nd ad w) =
        (2, ⟨[⟨n0, 0, a0, w0, false⟩, ⟨n1, b, a1, w1, false⟩], nd - 2, ad, false, w⟩) := by
      simp only [drawFromNumberDeck]
      rw [if_neg (show ¬(cwState n0 a0 w0 n1 b a1 w1 nd ad w).numberDeckRemaining ≤ 0 from
            by show ¬(nd ≤ 0); omega)]
      rw [min_eq_left (show (2 : Int) ≤ (cwState n0 a0 w0 n1 b a1 w1 nd ad w).numberDeckRemaining
            from by show (2 : Int) ≤ nd; omega)]
      exact rfl
    have hs1 : handleDrawChallenge cwChallenge 0 (cwState n0 a0 w0 n1 b a1 w1 nd ad w) =
        ⟨[⟨n0, 2, a0, w0, false⟩, ⟨n1, b, max 0 (a1 - 1), w1, false⟩],
         nd - 2, ad, false, w⟩ := by
      simp only [handleDrawChallenge, cwChallenge, if_true]
      rw [hd]
      exact rfl
    have ht2 : checkWinTrace cwChallenge [1]
        (⟨[⟨n0, 2, a0, w0, false⟩, ⟨n1, b, max 0 (a1 - 1), w1, false⟩],
          nd - 2, ad, false, w⟩ : GameState) =
        (⟨[⟨n0, 2, a0, w0, false⟩, ⟨n1, b, max 0 (a1 - 1), w1, false⟩],
          nd - 2, ad, false, w⟩, []) := by
      rw [checkWinTrace,
        if_neg (show ¬(((⟨[⟨n0, 2, a0, w0, false⟩, ⟨n1, b, max 0 (a1 - 1), w1, false⟩],
            nd - 2, ad, false, w⟩ : GameState).players[1]?.map Player.numberCards).getD 1 = 0)
          from hb)]
      exact rfl
    refine ⟨?_, ?_⟩
    · show checkWinLoop cwChallenge [0, 1] (cwState n0 a0 w0 n1 b a1 w1 nd ad w) = _
      rw [checkWinLoop_cons_zero cwChallenge 0 [1] (cwState n0 a0 w0 n1 b a1 w1 nd ad w)
            _ rfl hs1 (fun h => nomatch h)]
      rw [checkWinLoop_cons_skip cwChallenge 1 []
            (⟨[⟨n0, 2, a0, w0, false⟩, ⟨n1, b, max 0 (a1 - 1), w1, false⟩],
              nd - 2, ad, false, w⟩ : GameState) b rfl hb]
      exact rfl
    · show checkWinTrace cwChallenge [0, 1] (cwState n0 a0 w0 n1 b a1 w1 nd ad w) = _
      rw [checkWinTrace_cons_zero cwChallenge 0 [1] (cwState n0 a0 w0 n1 b a1 w1 nd ad w)
            _ rfl hs1 (fun h => nomatch h)]
      rw [ht2]
  · have hd0 : drawFromNumberDeck 2 (cwState n0 a0 w0 n1 b a1 w1 nd ad w) =
        (0, cwState n0 a0 w0 n1 b a1 w1 nd ad w) := by
      simp only [drawFromNumberDeck]
      rw [if_pos (show (cwState n0 a0 w0 n1 b a1 w1 nd ad w).numberDeckRemaining ≤ 0 from
            hnd0)]
    have hs1 : handleDrawChallenge cwChallenge 0 (cwState n0 a0 w0 n1 b a1 w1 nd ad w) =
        ⟨[⟨n0, 0, a0, w0, false⟩, ⟨n1, b, max 0 (a1 - 1), w1, false⟩],
         nd, ad, false, w⟩ := by
      simp only [handleDrawChallenge, cwChallenge, if_true]
      rw [hd0]
      exact rfl
    have ht2 : checkWinTrace cwChallenge [1]
        (⟨[⟨n0, 0, a0, w0, false⟩, ⟨n1, b, max 0 (a1 - 1), w1, false⟩],
          nd, ad, false, w⟩ : GameState) =
        (⟨[⟨n0, 0, a0, w0, false⟩, ⟨n1, b, max 0 (a1 - 1), w1, false⟩],
          nd, ad, false, w⟩, []) := by
      rw [checkWinTrace,
        if_neg (show ¬(((⟨[⟨n0, 0, a0, w0, false⟩, ⟨n1, b, max 0 (a1 - 1), w1, false⟩],
            nd, ad, false, w⟩ : GameState).players[1]?.map Player.numberCards).getD 1 = 0)
          from hb)]
      exact rfl
    refine ⟨?_, ?_⟩
    · show checkWinLoop cwChallenge [0, 1] (cwState n0 a0 w0 n1 b a1 w1 nd ad w) = _
      rw [checkWinLoop_cons_zero cwChallenge 0 [1] (cwState n0 a0 w0 n1 b a1 w1 nd ad w)
            _ rfl hs1 (fun h => nomatch h)]
      rw [checkWinLoop_cons_skip cwChallenge 1 []
            (⟨[⟨n0, 0, a0, w0, false⟩, ⟨n1, b, max 0 (a1 - 1), w1, false⟩],
              nd, ad, false, w⟩ : GameState) b rfl hb]
      exact rfl
    · show checkWinTrace cwChallenge [0, 1] (cwState n0 a0 w0 n1 b a1 w1 nd ad w) = _
      rw [checkWinTrace_cons_zero cwChallenge 0 [1] (cwState n0 a0 w0 n1 b a1 w1 nd ad w)
            _ rfl hs1 (fun h => nomatch h)]
      rw [ht2]

/-- Witness for `win_challenge_single_entry`: player "A" at 0, player "B"
at 5 with one action card, deck exhausted — one challenge entry, "A"
still at 0, game not over. -/
theorem win_challenge_single_entry_witness :
    checkWinTrace cwChallenge (List.range 2) (cwState "A" 0 0 "B" 5 1 0 0 32 "") =
      (⟨[⟨"A", 0, 0, 0, false⟩, ⟨"B", 5, max 0 (1 - 1), 0, false⟩], 0, 32, false, ""⟩,
       [0]) :=
  ((win_challenge_single_entry "A" "B" "" 0 0 5 1 0 0 32 (by norm_num)).2.2
    (by norm_num)).2

end SplitUno
